import Mathlib

/-!
Shallow embedding of the execution-reconciliation and position-rebuild engine
of the tradeflow backend (`app/services/bybit_sync.py`, `app/services/positions.py`,
`app/services/pnl.py`, `app/services/metrics.py`, ORM model `app/models.py`).

Modelling conventions:
* Monetary amounts, prices and quantities are rationals (`ℚ`); the Python code
  works on floats, which we model as exact rational arithmetic.
* Timestamps are natural numbers (milliseconds since epoch).  The ORM stores
  `ts` as a non-nullable column filled by the ingestion adapter, so we model it
  as total.
* Nullable string columns are modelled as `String` with `""` for SQL NULL:
  every use in the source goes through Python truthiness (`x or y`,
  `if exec_id:`), which identifies `None` and `""`.
* Nullable numeric columns that are only read through `float(x or 0.0)` are
  modelled as plain `ℚ` (NULL behaves exactly like `0`).  `Execution.price` is
  kept as `Option ℚ` because `_best_price` distinguishes NULL (`is not None`)
  from `0.0`.  Position fields read both ways keep `Option ℚ`.
* The SQLAlchemy session is modelled as an explicit `DB` record; `db.add` /
  `query(...).update(...)` become pure list operations, `db.commit` marks a
  durable state (relevant for the atomicity analysis of the incremental close
  path, where the code commits twice).
-/

set_option maxRecDepth 16000
set_option maxHeartbeats 2000000

namespace TF

/-- One exchange-reported execution fill, without its surrogate row id: the
canonical payload columns written by `_persist_execution`. -/
structure FillData where
  bot_id : ℕ
  symbol : String
  side : String
  price : Option ℚ
  qty : ℚ
  fee_usdt : ℚ
  reduce_only : Bool
  liquidity : String
  ts : ℕ
  exchange_exec_id : String
  exchange_order_id : String
  order_link_id : String
  deriving DecidableEq, Repr

/-- A stored `Execution` row: surrogate id, payload columns, `is_consumed` flag
(`models.Execution`). -/
structure Exec where
  id : ℕ
  d : FillData
  is_consumed : Bool
  deriving DecidableEq, Repr

/-- A stored `FundingEvent` row (`models.FundingEvent`). -/
structure Funding where
  bot_id : ℕ
  symbol : String
  amount_usdt : ℚ
  rate : ℚ
  ts : ℕ
  deriving DecidableEq, Repr

/-- The slice of `models.Bot` the reconciler reads (`_user_id_for`). -/
structure Bot where
  id : ℕ
  user_id : ℕ
  deriving DecidableEq, Repr

/-- The slice of `models.BotSymbolSetting` read by `handle_position_open`. -/
structure BotSymbolSetting where
  bot_id : ℕ
  symbol : String
  target_risk_amount : Option ℚ
  deriving DecidableEq, Repr

/-- A `models.Position` row, restricted to the columns the reconciliation
subsystem reads or writes.  `tv_signal` / `orders` relationships are not
modelled: positions created by the reconciler have `trade_uid` and
`tv_signal_id` NULL, so the correlation branches in the source are no-ops for
them. -/
structure Position where
  id : ℕ
  bot_id : ℕ
  user_id : Option ℕ
  symbol : String
  side : String
  status : String
  qty : ℚ
  risk_amount_usdt : Option ℚ
  entry_price_trigger : Option ℚ
  entry_price_best : Option ℚ
  entry_price_vwap : Option ℚ
  exit_price_vwap : Option ℚ
  exit_price_best : Option ℚ
  mark_price : Option ℚ
  fee_open_usdt : ℚ
  fee_close_usdt : ℚ
  funding_usdt : ℚ
  pnl_usdt : Option ℚ
  slippage_entry_usdt : Option ℚ
  slippage_exit_usdt : Option ℚ
  slippage_timelag_usdt : Option ℚ
  timelag_tv_bot_ms : Option ℚ
  timelag_bot_proc_ms : Option ℚ
  timelag_bot_exch_ms : Option ℚ
  first_exec_at : Option ℕ
  last_exec_at : Option ℕ
  opened_at : Option ℕ
  closed_at : Option ℕ
  deriving DecidableEq, Repr

/-- The relational store: one record per table plus autoincrement counters. -/
structure DB where
  bots : List Bot
  settings : List BotSymbolSetting
  execs : List Exec
  fundings : List Funding
  positions : List Position
  next_exec_id : ℕ
  next_pos_id : ℕ
  deriving DecidableEq, Repr

/-- Python float truthiness for a nullable numeric column: `None` and `0.0`
are falsy. -/
def truthy (o : Option ℚ) : Bool :=
  !(o.getD 0 == 0)

/-- `app/services/pnl.py`, `compute_pnl`: gross PnL by side minus the two fee
arguments, taken as given (no absolute value). -/
def compute_pnl (side : String) (qty entry_price mark_price : ℚ)
    (fees_open fees_close : ℚ) : ℚ :=
  let gross := if side == "long" then (mark_price - entry_price) * qty
               else (entry_price - mark_price) * qty
  gross - fees_open - fees_close

/-- `app/services/metrics.py`, `_slippage_entry_exit_usdt`: entry/exit slippage
in quote currency plus the timelag slippage.  `models.Position` has no
`risk_reward` column, so `getattr(pos, "risk_reward", 0)` is always `0` and the
timelag component is always `None`; we keep the conditional as written. -/
def slippage_entry_exit_usdt (pos : Position) : ℚ × ℚ × Option ℚ :=
  let qty := pos.qty
  let side := pos.side
  let entry_slip : ℚ :=
    if truthy pos.entry_price_vwap && truthy pos.entry_price_best && !(qty == 0) then
      let diff := pos.entry_price_vwap.getD 0 - pos.entry_price_best.getD 0
      if side == "long" then diff * qty else -diff * qty
    else 0
  let exit_slip : ℚ :=
    if truthy pos.exit_price_vwap && truthy pos.exit_price_best && !(qty == 0) then
      let diff := pos.exit_price_vwap.getD 0 - pos.exit_price_best.getD 0
      if side == "long" then diff * qty else -diff * qty
    else 0
  let risk := pos.risk_amount_usdt.getD 0
  let rrr : ℚ := 0
  let pnl := pos.pnl_usdt.getD 0
  let fees := pos.fee_open_usdt + pos.fee_close_usdt
  let funding := pos.funding_usdt
  let timelag : Option ℚ :=
    if risk == 0 || rrr == 0 then none
    else some ((if pnl > 0 then risk * rrr else -risk) - pnl - entry_slip - exit_slip
               - fees - funding)
  (entry_slip, exit_slip, timelag)

/-- `app/services/metrics.py`, `get_timelags_ms`, applied to a position with no
`tv_signal` relationship (the reconciler never sets `tv_signal_id`): returns
three `None`. -/
def get_timelags_ms (_pos : Position) : Option ℚ × Option ℚ × Option ℚ :=
  (none, none, none)

/-- `app/services/bybit_sync.py`, `_persist_execution`: inserts a new
`Execution` row unless a row with the same `(bot_id, exchange_exec_id)` already
exists; with an empty execution id no dedup check is made.  `exec_id`,
`order_id` and `link_id` are the values the payload probing (`payload.get`,
`_g`) extracts, `""` when absent. -/
def persist_execution (db : DB) (bot_id : ℕ) (symbol side : String)
    (price qty fee : ℚ) (is_closing : Bool) (liq : String) (ts : ℕ)
    (exec_id order_id link_id : String) : DB :=
  if exec_id != "" &&
      db.execs.any (fun e => e.d.bot_id == bot_id && e.d.exchange_exec_id == exec_id) then
    db
  else
    { db with
      execs := db.execs ++
        [{ id := db.next_exec_id
           d := { bot_id := bot_id, symbol := symbol, side := side
                  price := some price, qty := qty, fee_usdt := fee
                  reduce_only := is_closing, liquidity := liq, ts := ts
                  exchange_exec_id := exec_id, exchange_order_id := order_id
                  order_link_id := link_id }
           is_consumed := false }]
      next_exec_id := db.next_exec_id + 1 }

/-- `app/services/bybit_sync.py`, `_vwap_q` (and the identical local
`_vwap_q_execs` of the netting pass): total quantity and volume-weighted
average price of a list of fills; `(None, 0.0)` when the quantity sum is not
positive. -/
def vwap_q (lst : List FillData) : Option ℚ × ℚ :=
  let q := (lst.map (fun x => x.qty)).sum
  if q ≤ 0 then (none, 0)
  else (some ((lst.map (fun x => x.price.getD 0 * x.qty)).sum / q), q)

/-- `app/services/bybit_sync.py`, `_best_price` (and the identical local
`_best_exec_price`): minimum present price for a buy-side group, maximum
otherwise; `None` when no price is present. -/
def best_price (lst : List FillData) (side_first : String) : Option ℚ :=
  let prices := lst.filterMap (fun x => x.price)
  if prices.isEmpty then none
  else if side_first == "buy" then prices.min? else prices.max?

/-! ### The full-rebuild engine, `rebuild_positions_orderlink`

The Python function selects the unconsumed executions of one bot ordered by
`(symbol, ts, id)`, partitions them per symbol and runs, per symbol:
grouping by order id / order-link id / per-row orphan key, aggregation,
chronological pairing of opposite groups of equal quantity, a sequential
netting pass over the rows left over, a synthetic auto-close for stale
remainders, the `is_consumed` update for all used rows, and an open-carry
step for rows that are still unused.

Row identity: the Python code tracks rows through `used_row_ids` by their
surrogate id and builds orphan grouping keys from it.  Since surrogate ids
are unique, we equivalently identify a selected row by its position in the
sorted selection (`IRow` below pairs that index with the payload); the final
`is_consumed` update translates indices back to rows.  This makes explicit
that the created positions depend only on the payloads in sorted order. -/

/-- A selected execution row: index in the sorted selection plus payload. -/
abbrev IRow := ℕ × FillData

/-- A grouping key: a real exchange-order/link id, or the per-row orphan
bucket `__orphans__#id` (modelled by the row index). -/
abbrev GroupKey := String ⊕ ℕ

/-- Key selection of the grouping step: `exchange_order_id` preferred, falling
back to `order_link_id`, else a per-row orphan key. -/
def groupKeyOf (r : IRow) : GroupKey :=
  if r.2.exchange_order_id != "" then Sum.inl r.2.exchange_order_id
  else if r.2.order_link_id != "" then Sum.inl r.2.order_link_id
  else Sum.inr r.1

/-- `groups.setdefault(key, []).append(r)`: append a row to its keyed bucket,
creating the bucket at the end on first sight (Python dicts preserve key
insertion order). -/
def addToGroups (acc : List (GroupKey × List IRow)) (k : GroupKey) (r : IRow) :
    List (GroupKey × List IRow) :=
  match acc with
  | [] => [(k, [r])]
  | (k', l) :: rest =>
    if k' = k then (k', l ++ [r]) :: rest else (k', l) :: addToGroups rest k r

/-- The grouping loop of `rebuild_positions_orderlink`. -/
def groupRows (rows : List IRow) : List (GroupKey × List IRow) :=
  rows.foldl (fun acc r => addToGroups acc (groupKeyOf r) r) []

/-- The per-group aggregate dict built by `rebuild_positions_orderlink`
(its unused `key` entry is dropped). -/
structure Group where
  side : String
  qty : ℚ
  vwap : Option ℚ
  best : Option ℚ
  first_ts : Option ℕ
  last_ts : Option ℕ
  fee_sum : ℚ
  rows : List IRow
  bot_id : ℕ
  deriving Repr, DecidableEq, Inhabited

/-- Earliest exchange timestamp among the group rows of one side. -/
def firstTsOfSide (lst : List IRow) (s : String) : Option ℕ :=
  ((lst.filter (fun r => r.2.side == s)).map (fun r => r.2.ts)).min?

/-- Aggregation of one group: side from the earlier of the first buy/first
sell timestamp (tie toward buy), `_vwap_q`, `_best_price`, first/last
timestamp, fee sum.  `bot_id` is `lst[0].bot_id` (groups are never empty; `0`
stands for Python's unreachable `None`). -/
def mkGroup (lst : List IRow) : Group :=
  let first_buy := firstTsOfSide lst "buy"
  let first_sell := firstTsOfSide lst "sell"
  let side :=
    match first_buy, first_sell with
    | some b, some s => if b ≤ s then "buy" else "sell"
    | some _, none => "buy"
    | none, _ => "sell"
  let vq := vwap_q (lst.map (fun r => r.2))
  { side := side
    qty := vq.2
    vwap := vq.1
    best := best_price (lst.map (fun r => r.2)) side
    first_ts := (lst.map (fun r => r.2.ts)).min?
    last_ts := (lst.map (fun r => r.2.ts)).max?
    fee_sum := (lst.map (fun r => r.2.fee_usdt)).sum
    rows := lst
    bot_id := (lst.head?.map (fun r => r.2.bot_id)).getD 0 }

/-- `_user_id_for`: user id of a bot row, `None` when the bot is missing. -/
def userIdFor (bots : List Bot) (bid : ℕ) : Option ℕ :=
  (bots.find? (fun b => b.id == bid)).map (fun b => b.user_id)

/-- Python `a or b` on two nullable floats: `a` unless it is `None` or `0.0`. -/
def orElseTruthy (a b : Option ℚ) : Option ℚ :=
  if truthy a then a else b

/-- Store the `_slippage_entry_exit_usdt` triple on a freshly built position,
as every creation site of the rebuilder does. -/
def finishPos (p : Position) : Position :=
  let t := slippage_entry_exit_usdt p
  { p with
    slippage_entry_usdt := some t.1
    slippage_exit_usdt := some t.2.1
    slippage_timelag_usdt := t.2.2 }

/-- Funding events of `(bot, symbol)` inside `[a, b]`, summed raw.  A `None`
bound reproduces the SQL `NULL` comparison: no row matches. -/
def funding_window (fundings : List Funding) (bot : ℕ) (symbol : String)
    (a b : Option ℕ) : ℚ :=
  match a, b with
  | some a, some b =>
    ((fundings.filter (fun f =>
        f.bot_id == bot && f.symbol == symbol && decide (a ≤ f.ts) && decide (f.ts ≤ b))).map
      (fun f => f.amount_usdt)).sum
  | _, _ => 0

/-- `x.ts.strftime("%H:%M") in ("00:00","08:00","16:00")` for a
millisecond UTC timestamp. -/
def isFundingWallTime (ts : ℕ) : Bool :=
  let m := ts / 60000 % 1440
  m == 0 || m == 480 || m == 960

/-- Fallback B of the funding attribution: fees of executions of
`(bot, symbol)` that carry neither an order id nor an order-link id, fall in
the window, and sit at one of the three funding wall-clock times.  The query
runs over the whole `executions` table, modelled as a multiset because only
this sum is used. -/
def funding_fallback_execs (all : Multiset FillData) (bot : ℕ) (symbol : String)
    (a b : Option ℕ) : ℚ :=
  match a, b with
  | some a, some b =>
    ((all.filter (fun d =>
        d.bot_id = bot ∧ d.symbol = symbol ∧ d.order_link_id = "" ∧
        d.exchange_order_id = "" ∧ a ≤ d.ts ∧ d.ts ≤ b ∧
        isFundingWallTime d.ts = true)).map
      (fun d => d.fee_usdt)).sum
  | _, _ => 0

/-- Funding of a paired position: the raw window sum, with fallback B when it
is zero. -/
def pair_funding (fundings : List Funding) (all : Multiset FillData)
    (bot : ℕ) (symbol : String) (a b : Option ℕ) : ℚ :=
  let f := funding_window fundings bot symbol a b
  if f == 0 then funding_fallback_execs all bot symbol a b else f

/-- The pairing tolerance `eps = 1e-9`. -/
def epsPair : ℚ := 1 / 1000000000

/-- The netting zero tolerance `1e-12` (also used by `_aggregate_exits`). -/
def epsNet : ℚ := 1 / 1000000000000

/-- Read-only context threaded through one rebuild run: wall clock, `bots`
table, `funding_events` table and the payloads of the whole `executions`
table (for funding fallback B). -/
structure SymCtx where
  now : ℕ
  bots : List Bot
  fundings : List Funding
  allExecs : Multiset FillData

/-- Mutable state threaded through one symbol: positions table (full list),
used row indices, next position surrogate id. -/
structure RbState where
  positions : List Position
  used : List ℕ
  nextId : ℕ
  deriving Repr, DecidableEq

/-- The closed position built for one (entry group, exit group) pair,
lines 444-469 of `bybit_sync.py`. -/
def mkPairPosition (ctx : SymCtx) (symbol : String) (nextId : ℕ)
    (entry_g exit_g : Group) : Position :=
  let side_first := entry_g.side
  let v_entry := entry_g.vwap.getD 0
  let v_exit := exit_g.vwap.getD 0
  let fee_open := entry_g.fee_sum
  let fee_close := exit_g.fee_sum
  let opened_at := entry_g.first_ts
  let closed_at := exit_g.last_ts
  let funding := pair_funding ctx.fundings ctx.allExecs entry_g.bot_id symbol opened_at closed_at
  let pnl_gross :=
    if side_first == "buy" then (v_exit - v_entry) * entry_g.qty
    else (v_entry - v_exit) * entry_g.qty
  let pnl_net := pnl_gross - |fee_open| - |fee_close| - funding
  let best_entry := orElseTruthy (best_price (entry_g.rows.map (fun r => r.2)) side_first) entry_g.vwap
  let exit_side := if side_first == "buy" then "sell" else "buy"
  let best_exit := orElseTruthy (best_price (exit_g.rows.map (fun r => r.2)) exit_side) exit_g.vwap
  finishPos
    { id := nextId
      bot_id := entry_g.bot_id
      user_id := userIdFor ctx.bots entry_g.bot_id
      symbol := symbol
      side := if side_first == "buy" then "long" else "short"
      status := "closed"
      qty := entry_g.qty
      risk_amount_usdt := none
      entry_price_trigger := none
      entry_price_best := best_entry
      entry_price_vwap := entry_g.vwap
      exit_price_vwap := exit_g.vwap
      exit_price_best := best_exit
      mark_price := none
      fee_open_usdt := |fee_open|
      fee_close_usdt := |fee_close|
      funding_usdt := funding
      pnl_usdt := some pnl_net
      slippage_entry_usdt := none
      slippage_exit_usdt := none
      slippage_timelag_usdt := none
      timelag_tv_bot_ms := none
      timelag_bot_proc_ms := none
      timelag_bot_exch_ms := none
      first_exec_at := opened_at
      last_exec_at := closed_at
      opened_at := opened_at
      closed_at := closed_at }

/-- The forward-scan pairing loop (`while i < len(agg) - 1`), written with
explicit fuel (`agg.length` suffices, the index strictly increases). -/
def pairStep (ctx : SymCtx) (symbol : String) (agg : List Group) :
    ℕ → ℕ → RbState → RbState
  | 0, _, st => st
  | fuel + 1, i, st =>
    if i < agg.length - 1 then
      let g1 := agg.getD i default
      match (agg.drop (i + 1)).findIdx?
          (fun g2 => g1.side != g2.side && decide (|g1.qty - g2.qty| ≤ epsPair)) with
      | none => pairStep ctx symbol agg fuel (i + 1) st
      | some rel =>
        let j := i + 1 + rel
        let g2 := agg.getD j default
        let eg := if g1.first_ts.getD ctx.now ≤ g2.first_ts.getD ctx.now then (g1, g2) else (g2, g1)
        if truthy eg.1.vwap && truthy eg.2.vwap && decide (eg.1.qty > 0) then
          let pos := mkPairPosition ctx symbol st.nextId eg.1 eg.2
          pairStep ctx symbol agg fuel (j + 1)
            { positions := st.positions ++ [pos]
              used := st.used ++ (eg.1.rows ++ eg.2.rows).map (fun r => r.1)
              nextId := st.nextId + 1 }
        else pairStep ctx symbol agg fuel (j + 1) st
    else st

/-- Accumulator of the sequential-netting pass. -/
structure NetState where
  net : ℚ
  entry_fills : List IRow
  exit_fills : List IRow
  fee_open_r : ℚ
  fee_close_r : ℚ
  first_side_r : Option String
  opened_at_r : Option ℕ
  rb : RbState
  deriving Repr, DecidableEq

/-- The closed position built when the running net returns to zero,
lines 553-578 of `bybit_sync.py`. -/
def mkNetPosition (ctx : SymCtx) (symbol : String) (nextId bot : ℕ)
    (first_side : Option String) (opened closed : Option ℕ)
    (entry exits : List IRow) (feo fec : ℚ) : Position :=
  let ve := vwap_q (entry.map (fun r => r.2))
  let vx := vwap_q (exits.map (fun r => r.2))
  let isBuy := first_side == some "buy"
  let pnl_gross :=
    if isBuy then (vx.1.getD 0 - ve.1.getD 0) * ve.2
    else (ve.1.getD 0 - vx.1.getD 0) * ve.2
  let best_entry := best_price (entry.map (fun r => r.2)) (if isBuy then "buy" else "sell")
  let best_exit := best_price (exits.map (fun r => r.2)) (if isBuy then "sell" else "buy")
  let funding := funding_window ctx.fundings bot symbol opened closed
  let pnl_net := pnl_gross - |feo| - |fec| - funding
  finishPos
    { id := nextId
      bot_id := bot
      user_id := userIdFor ctx.bots bot
      symbol := symbol
      side := if isBuy then "long" else "short"
      status := "closed"
      qty := ve.2
      risk_amount_usdt := none
      entry_price_trigger := none
      entry_price_best := orElseTruthy best_entry ve.1
      entry_price_vwap := ve.1
      exit_price_vwap := vx.1
      exit_price_best := orElseTruthy best_exit vx.1
      mark_price := none
      fee_open_usdt := |feo|
      fee_close_usdt := |fec|
      funding_usdt := funding
      pnl_usdt := some pnl_net
      slippage_entry_usdt := none
      slippage_exit_usdt := none
      slippage_timelag_usdt := none
      timelag_tv_bot_ms := none
      timelag_bot_proc_ms := none
      timelag_bot_exch_ms := none
      first_exec_at := opened
      last_exec_at := closed
      opened_at := opened
      closed_at := closed }

/-- One iteration of the netting loop over a leftover row. -/
def nettingStep (ctx : SymCtx) (symbol : String) (st : NetState) (e : IRow) : NetState :=
  let side := e.2.side
  let qty := e.2.qty
  if qty == 0 then { st with rb := { st.rb with used := st.rb.used ++ [e.1] } }
  else
    let first_side := if st.net == 0 then some side else st.first_side_r
    let opened := if st.net == 0 then some e.2.ts else st.opened_at_r
    let net := st.net + (if side == "buy" then qty else -qty)
    let isEntry := some side == first_side
    let entry := if isEntry then st.entry_fills ++ [e] else st.entry_fills
    let exits := if isEntry then st.exit_fills else st.exit_fills ++ [e]
    let feo := if isEntry then st.fee_open_r + e.2.fee_usdt else st.fee_open_r
    let fec := if isEntry then st.fee_close_r else st.fee_close_r + e.2.fee_usdt
    if |net| ≤ epsNet then
      let ve := vwap_q (entry.map (fun r => r.2))
      let vx := vwap_q (exits.map (fun r => r.2))
      let rb :=
        if ve.1.isSome && vx.1.isSome && decide (ve.2 > 0) then
          { positions := st.rb.positions ++
              [mkNetPosition ctx symbol st.rb.nextId e.2.bot_id first_side opened
                (some e.2.ts) entry exits feo fec]
            used := st.rb.used ++ (entry ++ exits).map (fun r => r.1)
            nextId := st.rb.nextId + 1 }
        else { st.rb with used := st.rb.used ++ (entry ++ exits).map (fun r => r.1) }
      { net := net, entry_fills := [], exit_fills := [], fee_open_r := 0, fee_close_r := 0,
        first_side_r := none, opened_at_r := none, rb := rb }
    else
      { net := net, entry_fills := entry, exit_fills := exits, fee_open_r := feo,
        fee_close_r := fec, first_side_r := first_side, opened_at_r := opened, rb := st.rb }

/-- The synthetic auto-close position for a stale netting remainder,
lines 594-654 of `bybit_sync.py` (funding fallback B applies here). -/
def mkAutoPosition (ctx : SymCtx) (symbol : String) (nextId bot : ℕ)
    (first_side : Option String) (opened : Option ℕ) (last_ts : ℕ)
    (last_price : ℚ) (entry : List IRow) (feo fec : ℚ) : Position :=
  let ve := vwap_q (entry.map (fun r => r.2))
  let isBuy := first_side == some "buy"
  let pnl_gross :=
    if isBuy then (last_price - ve.1.getD 0) * ve.2
    else (ve.1.getD 0 - last_price) * ve.2
  let best_entry := best_price (entry.map (fun r => r.2)) (if isBuy then "buy" else "sell")
  let funding := pair_funding ctx.fundings ctx.allExecs bot symbol opened (some last_ts)
  let pnl_net := pnl_gross - |feo| - |fec| - funding
  finishPos
    { id := nextId
      bot_id := bot
      user_id := userIdFor ctx.bots bot
      symbol := symbol
      side := if isBuy then "long" else "short"
      status := "closed"
      qty := ve.2
      risk_amount_usdt := none
      entry_price_trigger := none
      entry_price_best := orElseTruthy best_entry ve.1
      entry_price_vwap := ve.1
      exit_price_vwap := some last_price
      exit_price_best := orElseTruthy (some last_price) (some last_price)
      mark_price := none
      fee_open_usdt := |feo|
      fee_close_usdt := |fec|
      funding_usdt := funding
      pnl_usdt := some pnl_net
      slippage_entry_usdt := none
      slippage_exit_usdt := none
      slippage_timelag_usdt := none
      timelag_tv_bot_ms := none
      timelag_bot_proc_ms := none
      timelag_bot_exch_ms := none
      first_exec_at := opened
      last_exec_at := some last_ts
      opened_at := opened
      closed_at := some last_ts }

/-- The post-loop auto-close step: only when net exposure remains, the last
remaining fill is older than the 14-day cutoff and entry fills exist; the
entry fills are marked used even when no position is built. -/
def autoClose (ctx : SymCtx) (symbol : String) (remaining : List IRow)
    (st : NetState) : NetState :=
  if decide (|st.net| > epsNet) && !remaining.isEmpty then
    match remaining.getLast? with
    | none => st
    | some lastRow =>
      let last_ts := lastRow.2.ts
      if decide ((last_ts : ℤ) ≤ (ctx.now : ℤ) - 1209600000) && !st.entry_fills.isEmpty then
        let last_price := lastRow.2.price.getD 0
        let ve := vwap_q (st.entry_fills.map (fun r => r.2))
        let rb1 :=
          if truthy ve.1 && decide (ve.2 > 0) && decide (last_price > 0) then
            { positions := st.rb.positions ++
                [mkAutoPosition ctx symbol st.rb.nextId
                  ((st.entry_fills.head?.map (fun r => r.2.bot_id)).getD 0)
                  st.first_side_r st.opened_at_r last_ts last_price
                  st.entry_fills st.fee_open_r st.fee_close_r]
              used := st.rb.used
              nextId := st.rb.nextId + 1 }
          else st.rb
        { st with rb :=
            { rb1 with used := rb1.used ++ st.entry_fills.map (fun r => r.1) } }
      else st
  else st

/-- The open position built by the open-carry step for one leftover group,
lines 709-733 of `bybit_sync.py`. -/
def mkCarryPosition (ctx : SymCtx) (symbol : String) (st : RbState) (g : Group) : Position :=
  let remaining := g.rows.filter (fun r => !(st.used.contains r.1))
  let side_first := g.side
  let entry_side := remaining.filter (fun r => r.2.side == side_first)
  let vq := vwap_q ((if entry_side.isEmpty then remaining else entry_side).map (fun r => r.2))
  let opened := (remaining.map (fun r => r.2.ts)).min?
  let last := (remaining.map (fun r => r.2.ts)).max?
  let best_open := best_price (remaining.map (fun r => r.2)) side_first
  let fee :=
    if entry_side.isEmpty then (remaining.map (fun r => r.2.fee_usdt)).sum
    else (entry_side.map (fun r => r.2.fee_usdt)).sum
  finishPos
    { id := st.nextId
      bot_id := g.bot_id
      user_id := userIdFor ctx.bots g.bot_id
      symbol := symbol
      side := if side_first == "buy" then "long" else "short"
      status := "open"
      qty := vq.2
      risk_amount_usdt := none
      entry_price_trigger := none
      entry_price_best := best_open
      entry_price_vwap := vq.1
      exit_price_vwap := none
      exit_price_best := none
      mark_price := none
      fee_open_usdt := |fee|
      fee_close_usdt := 0
      funding_usdt := 0
      pnl_usdt := none
      slippage_entry_usdt := none
      slippage_exit_usdt := none
      slippage_timelag_usdt := none
      timelag_tv_bot_ms := none
      timelag_bot_proc_ms := none
      timelag_bot_exch_ms := none
      first_exec_at := opened
      last_exec_at := last
      opened_at := opened
      closed_at := none }

/-- The open-carry step for one leftover group, lines 677-741 of
`bybit_sync.py`: guarded by the one-open-position lookup; on creation the
per-symbol `used_row_ids` set is cleared, as in the source. -/
def carryStep (ctx : SymCtx) (symbol : String) (st : RbState) (g : Group) : RbState :=
  let remaining := g.rows.filter (fun r => !(st.used.contains r.1))
  if remaining.isEmpty then st
  else if st.positions.any (fun p =>
      p.bot_id == g.bot_id && p.symbol == symbol && p.status == "open") then st
  else
    let entry_side := remaining.filter (fun r => r.2.side == g.side)
    let vq := vwap_q ((if entry_side.isEmpty then remaining else entry_side).map (fun r => r.2))
    if !(truthy vq.1) || decide (vq.2 ≤ 0) then st
    else
      { positions := st.positions ++ [mkCarryPosition ctx symbol st g], used := [],
        nextId := st.nextId + 1 }

/-- One symbol of the rebuild: grouping, aggregation, chronological (stable)
sort of the groups, pairing, netting over leftovers sorted by `(ts, id)`,
auto-close, then open-carry.  Returns the new positions table, the row
indices to mark consumed (the pre-carry used set, as in the source where the
UPDATE runs before the carry loop) and the next position id. -/
def processSymbol (ctx : SymCtx) (symbol : String) (rows : List IRow)
    (positions : List Position) (nextId : ℕ) :
    List Position × List ℕ × ℕ :=
  let agg0 := (groupRows rows).map (fun kl => mkGroup kl.2)
  let agg := List.insertionSort
    (fun a b => a.first_ts.getD ctx.now ≤ b.first_ts.getD ctx.now) agg0
  let st1 := pairStep ctx symbol agg agg.length 0 ⟨positions, [], nextId⟩
  let remaining0 := (agg.map Group.rows).flatten.filter (fun r => !(st1.used.contains r.1))
  let remaining := List.insertionSort
    (fun a b => a.2.ts < b.2.ts ∨ (a.2.ts = b.2.ts ∧ a.1 ≤ b.1)) remaining0
  let st2 := remaining.foldl (nettingStep ctx symbol)
    { net := 0, entry_fills := [], exit_fills := [], fee_open_r := 0, fee_close_r := 0,
      first_side_r := none, opened_at_r := none, rb := st1 }
  let stA := autoClose ctx symbol remaining st2
  let st3 := (agg.foldl (carryStep ctx symbol) stA.rb)
  (st3.positions, stA.rb.used, st3.nextId)

/-- The `ORDER BY symbol ASC, ts ASC, id ASC` of the selection query.  String
comparison is modelled by the lexicographic order on the character data. -/
def selLe (a b : Exec) : Prop :=
  a.d.symbol.data < b.d.symbol.data ∨
    (a.d.symbol = b.d.symbol ∧
      (a.d.ts < b.d.ts ∨ (a.d.ts = b.d.ts ∧ a.id ≤ b.id)))

instance : DecidableRel selLe := fun a b => by unfold selLe; infer_instance

instance : IsTotal Exec selLe := by
  constructor
  intro a b
  rcases lt_trichotomy a.d.symbol.data b.d.symbol.data with h | h | h
  · exact Or.inl (Or.inl h)
  · rcases lt_trichotomy a.d.ts b.d.ts with h2 | h2 | h2
    · exact Or.inl (Or.inr ⟨String.ext h, Or.inl h2⟩)
    · rcases Nat.le_total a.id b.id with h3 | h3
      · exact Or.inl (Or.inr ⟨String.ext h, Or.inr ⟨h2, h3⟩⟩)
      · exact Or.inr (Or.inr ⟨(String.ext h).symm, Or.inr ⟨h2.symm, h3⟩⟩)
    · exact Or.inr (Or.inr ⟨(String.ext h).symm, Or.inl h2⟩)
  · exact Or.inr (Or.inl h)

instance : IsTrans Exec selLe := by
  constructor
  rintro a b c (h | ⟨he, h⟩) (h' | ⟨he', h'⟩)
  · exact Or.inl (h.trans h')
  · exact Or.inl (he' ▸ h)
  · exact Or.inl (he ▸ h')
  · refine Or.inr ⟨he.trans he', ?_⟩
    rcases h with h | ⟨ht, h⟩ <;> rcases h' with h' | ⟨ht', h'⟩
    · exact Or.inl (h.trans h')
    · exact Or.inl (ht' ▸ h)
    · exact Or.inl (ht ▸ h')
    · exact Or.inr ⟨ht.trans ht', h.trans h'⟩

/-- First-appearance deduplication (the iteration order of the per-symbol
dict, whose keys appear in ascending symbol order). -/
def dedupKeepFirst (l : List String) : List String :=
  l.foldl (fun acc s => if acc.contains s then acc else acc ++ [s]) []

/-- `rebuild_positions_orderlink`: the full-rebuild entry point for one bot.
Returns the new store and the number of positions created; the whole run is
one transaction committed at the very end. -/
def rebuild_positions_orderlink (now : ℕ) (db : DB) (bot_id : ℕ) : DB × ℕ :=
  let sel := db.execs.filter (fun e => e.d.bot_id == bot_id && !e.is_consumed)
  let sorted := List.insertionSort selLe sel
  if sorted.isEmpty then (db, 0)
  else
    let irows : List IRow := sorted.enum.map (fun p => (p.1, p.2.d))
    let symbols := dedupKeepFirst (irows.map (fun r => r.2.symbol))
    let ctx : SymCtx := ⟨now, db.bots, db.fundings, ↑(db.execs.map (fun e => e.d))⟩
    let res := symbols.foldl
      (fun (acc : List Position × List ℕ × ℕ) s =>
        let r := processSymbol ctx s (irows.filter (fun r => r.2.symbol == s)) acc.1 acc.2.2
        (r.1, acc.2.1 ++ r.2.1, r.2.2))
      (db.positions, ([] : List ℕ), db.next_pos_id)
    let usedIds := res.2.1.filterMap (fun i => (sorted[i]?).map (fun e => e.id))
    let execs' := db.execs.map
      (fun e => if usedIds.contains e.id then { e with is_consumed := true } else e)
    ({ db with execs := execs', positions := res.1, next_pos_id := res.2.2 },
     res.1.length - db.positions.length)

/-! ### The incremental path, `app/services/positions.py`

Each `db.commit()` of the source corresponds to one value of type `DB`
produced here; `close_if_match_plan` exposes the two successive committed
states of the close path (finalize commits first, the consumed-flag update
commits separately afterwards). -/

/-- Update one position row in place (`db.add(pos); db.commit()` on a loaded
row). -/
def updatePos (db : DB) (pid : ℕ) (f : Position → Position) : DB :=
  { db with positions := db.positions.map (fun p => if p.id == pid then f p else p) }

/-- `update_fee_open_for_position`: recompute `fee_open_usdt` of an open
position from the unconsumed entry-side fills since `opened_at`, and bump
`last_exec_at`. -/
def update_fee_open_for_position (db : DB) (position_id : ℕ) : DB :=
  match db.positions.find? (fun p => p.id == position_id) with
  | none => db
  | some pos =>
    match pos.opened_at with
    | none => db
    | some oa =>
      let entry_side := if pos.side == "long" then "buy" else "sell"
      let execs := db.execs.filter (fun e =>
        e.d.bot_id == pos.bot_id && e.d.symbol == pos.symbol &&
        decide (oa ≤ e.d.ts) && !e.is_consumed)
      let fee_open := ((execs.filter (fun e => e.d.side == entry_side)).map
        (fun e => e.d.fee_usdt)).sum
      updatePos db position_id (fun p =>
        { p with
          fee_open_usdt := fee_open
          last_exec_at :=
            if execs.isEmpty then p.last_exec_at
            else ((execs.map (fun e => e.d.ts)).max?).orElse (fun _ => p.last_exec_at) })

/-- `handle_position_open`: returns the existing open position for the key if
there is one, otherwise inserts a fresh open position (risk amount from
`BotSymbolSetting`, entry slippage stored, `fee_open` recomputed).  The
`trade_uid`-to-order linking is a no-op for a fresh position (`trade_uid` is
never set).  The result is the id of the open position. -/
def handle_position_open (now : ℕ) (db : DB) (bot_id : ℕ) (symbol side0 : String)
    (qty : ℚ) (opened_at : Option ℕ) : DB × Option ℕ :=
  let side := if side0 == "" then "long" else side0
  match db.positions.find? (fun p =>
      p.bot_id == bot_id && p.symbol == symbol && p.status == "open") with
  | some existing => (db, some existing.id)
  | none =>
    let oa := opened_at.getD now
    let risk := (db.settings.find? (fun st =>
        st.bot_id == bot_id && st.symbol == symbol)).bind
      (fun st => st.target_risk_amount)
    let pos0 : Position :=
      { id := db.next_pos_id
        bot_id := bot_id
        user_id := userIdFor db.bots bot_id
        symbol := symbol
        side := side
        status := "open"
        qty := qty
        risk_amount_usdt := risk
        entry_price_trigger := none
        entry_price_best := none
        entry_price_vwap := none
        exit_price_vwap := none
        exit_price_best := none
        mark_price := none
        fee_open_usdt := 0
        fee_close_usdt := 0
        funding_usdt := 0
        pnl_usdt := none
        slippage_entry_usdt := none
        slippage_exit_usdt := none
        slippage_timelag_usdt := none
        timelag_tv_bot_ms := none
        timelag_bot_proc_ms := none
        timelag_bot_exch_ms := none
        first_exec_at := some oa
        last_exec_at := some oa
        opened_at := some oa
        closed_at := none }
    let pos := { pos0 with slippage_entry_usdt := some (slippage_entry_exit_usdt pos0).1 }
    let db1 := { db with positions := db.positions ++ [pos], next_pos_id := db.next_pos_id + 1 }
    (update_fee_open_for_position db1 pos.id, some pos.id)

/-- `_aggregate_exits_for_position`: walk the unconsumed fills of the
position key since `opened_at` in `(ts, id)` order, take opposite-side volume
up to the position quantity with proportional fees, and return
`(exit vwap, fee sum, last timestamp)`; `(None, 0.0, None)` while the exit
volume is still short of the target.  The loop `break` once the remainder is
below `1e-12` is modelled by skipping (no later row can change the state). -/
def aggregate_exits_for_position (db : DB) (position_id : ℕ) :
    Option ℚ × ℚ × Option ℕ :=
  match db.positions.find? (fun p => p.id == position_id) with
  | none => (none, 0, none)
  | some pos =>
    match pos.opened_at with
    | none => (none, 0, none)
    | some oa =>
      let qty_target := pos.qty
      if qty_target ≤ 0 then (none, 0, none)
      else
        let exit_side := if pos.side == "long" then "sell" else "buy"
        let execs := List.insertionSort
          (fun a b => a.d.ts < b.d.ts ∨ (a.d.ts = b.d.ts ∧ a.id ≤ b.id))
          (db.execs.filter (fun e =>
            e.d.bot_id == pos.bot_id && e.d.symbol == pos.symbol &&
            decide (oa ≤ e.d.ts) && !e.is_consumed))
        if execs.isEmpty then (none, 0, none)
        else
          let r := execs.foldl
            (fun (acc : ℚ × ℚ × ℚ × Option ℕ) e =>
              if e.d.side != exit_side then acc
              else
                let q := e.d.qty
                if q ≤ 0 then acc
                else
                  let remaining := qty_target - acc.1
                  if remaining ≤ epsNet then acc
                  else
                    let take := min q remaining
                    if take ≤ 0 then acc
                    else
                      (acc.1 + take,
                       acc.2.1 + e.d.price.getD 0 * take,
                       acc.2.2.1 + e.d.fee_usdt * (take / q),
                       some e.d.ts))
            (0, 0, 0, none)
          if r.1 < qty_target - epsNet then (none, 0, none)
          else ((if r.1 > 0 then some (r.2.1 / r.1) else none), r.2.2.1, r.2.2.2)

/-- `_finalize_position`: write status `closed`, exit vwap, pnl and closing
fee, recompute the slippage triple on the mutated row, store the (absent)
signal timelags and set `closed_at` (falling back to the wall clock).  No
status check is performed. -/
def finalize_position (now : ℕ) (db : DB) (pid : ℕ)
    (exit_price pnl fee_close : ℚ) (closed_at : Option ℕ) : DB :=
  updatePos db pid (fun pos =>
    let p1 := { pos with
      status := "closed"
      exit_price_vwap := some exit_price
      pnl_usdt := some pnl
      fee_close_usdt := fee_close }
    let t := slippage_entry_exit_usdt p1
    let tl := get_timelags_ms p1
    { p1 with
      slippage_entry_usdt := some t.1
      slippage_exit_usdt := some t.2.1
      slippage_timelag_usdt := t.2.2
      timelag_tv_bot_ms := tl.1
      timelag_bot_proc_ms := tl.2.1
      timelag_bot_exch_ms := tl.2.2
      closed_at := some (closed_at.getD now) })

/-- `_consume_execs_for_position`: flag as consumed every unconsumed
execution of the position key whose timestamp lies in
`[opened_at, upto_ts or closed_at or last_exec_at or opened_at]`,
independent of side. -/
def consume_execs_for_position (db : DB) (position_id : ℕ)
    (upto_ts : Option ℕ) : DB :=
  match db.positions.find? (fun p => p.id == position_id) with
  | none => db
  | some pos =>
    match pos.opened_at with
    | none => db
    | some oa =>
      let end_ts := (((upto_ts.orElse (fun _ => pos.closed_at)).orElse
        (fun _ => pos.last_exec_at)).getD oa)
      { db with execs := db.execs.map (fun e =>
          if e.d.bot_id == pos.bot_id && e.d.symbol == pos.symbol &&
              decide (oa ≤ e.d.ts) && decide (e.d.ts ≤ end_ts) && !e.is_consumed
          then { e with is_consumed := true } else e) }

/-- `handle_position_close`: loads the position by id with no status check,
aggregates exits (an explicit override wins, `mark_price` is the last
fallback), computes the PnL via `compute_pnl`, finalizes (first commit) and
then consumes the executions (second commit). -/
def handle_position_close (now : ℕ) (db : DB) (position_id : ℕ)
    (exit_price_override : Option ℚ) : DB × Option ℕ :=
  match db.positions.find? (fun p => p.id == position_id) with
  | none => (db, none)
  | some pos =>
    let agg := aggregate_exits_for_position db position_id
    let exit0 := match exit_price_override with
      | some v => some v
      | none => agg.1
    let entry_px := (orElseTruthy pos.entry_price_vwap pos.entry_price_trigger).getD 0
    let fee_close := agg.2.1
    let exit_px := match exit0 with
      | some v => v
      | none => pos.mark_price.getD 0
    let pnl := compute_pnl pos.side pos.qty entry_px exit_px pos.fee_open_usdt fee_close
    let db1 := finalize_position now db position_id exit_px pnl fee_close agg.2.2
    let db2 := consume_execs_for_position db1 position_id none
    (db2, some position_id)

/-- The aggregate dict of `_aggregate_entries_for_open`. -/
structure EntryAgg where
  side_first : String
  qty : ℚ
  vwap : ℚ
  best : Option ℚ
  fee_open : ℚ
  opened_at : Option ℕ
  last_ts : Option ℕ
  deriving Repr, DecidableEq

/-- `_aggregate_entries_for_open`: over the unconsumed fills of the key in
`(ts, id)` order, the side of the first fill with a nonzero quantity defines
the entry side; aggregate that side. -/
def aggregate_entries_for_open (db : DB) (bot_id : ℕ) (symbol : String) :
    Option EntryAgg :=
  let rows := List.insertionSort
    (fun a b => a.d.ts < b.d.ts ∨ (a.d.ts = b.d.ts ∧ a.id ≤ b.id))
    (db.execs.filter (fun e =>
      e.d.bot_id == bot_id && e.d.symbol == symbol && !e.is_consumed))
  if rows.isEmpty then none
  else
    match rows.find? (fun r => !(r.d.qty == 0)) with
    | none => none
    | some first =>
      let side_first := if first.d.side == "" then "buy" else first.d.side
      let entry := rows.filter (fun r => r.d.side == side_first)
      if entry.isEmpty then none
      else
        let q := (entry.map (fun r => r.d.qty)).sum
        if q ≤ 0 then none
        else
          some
            { side_first := side_first
              qty := q
              vwap := (entry.map (fun r => r.d.price.getD 0 * r.d.qty)).sum / q
              best :=
                if side_first == "buy" then (entry.filterMap (fun r => r.d.price)).min?
                else (entry.filterMap (fun r => r.d.price)).max?
              fee_open := (entry.map (fun r => r.d.fee_usdt)).sum
              opened_at := (entry.map (fun r => r.d.ts)).min?
              last_ts := (entry.map (fun r => r.d.ts)).max? }

/-- `open_from_execs_if_missing`: create a fresh open position from the
unconsumed entry aggregate, unless an open position already exists for the
key.  The fills are deliberately left unconsumed. -/
def open_from_execs_if_missing (db : DB) (bot_id : ℕ) (symbol : String) :
    DB × Option ℕ :=
  if db.positions.any (fun p =>
      p.bot_id == bot_id && p.symbol == symbol && p.status == "open") then (db, none)
  else
    match aggregate_entries_for_open db bot_id symbol with
    | none => (db, none)
    | some agg =>
      let pos : Position :=
        { id := db.next_pos_id
          bot_id := bot_id
          user_id := userIdFor db.bots bot_id
          symbol := symbol
          side := if agg.side_first == "buy" then "long" else "short"
          status := "open"
          qty := agg.qty
          risk_amount_usdt := none
          entry_price_trigger := none
          entry_price_best := agg.best
          entry_price_vwap := some agg.vwap
          exit_price_vwap := none
          exit_price_best := none
          mark_price := none
          fee_open_usdt := |agg.fee_open|
          fee_close_usdt := 0
          funding_usdt := 0
          pnl_usdt := none
          slippage_entry_usdt := none
          slippage_exit_usdt := none
          slippage_timelag_usdt := none
          timelag_tv_bot_ms := none
          timelag_bot_proc_ms := none
          timelag_bot_exch_ms := none
          first_exec_at := agg.opened_at
          last_exec_at := agg.last_ts
          opened_at := agg.opened_at
          closed_at := none }
      ({ db with positions := db.positions ++ [pos], next_pos_id := db.next_pos_id + 1 },
       some pos.id)

/-- `close_if_match`, staged by commit: `none` when no open position exists
for the key or the exit volume is not yet sufficient; otherwise
`(position id, state after the finalize commit, state after the consume
commit)`. -/
def close_if_match_plan (now : ℕ) (db : DB) (bot_id : ℕ) (symbol : String) :
    Option (ℕ × DB × DB) :=
  match db.positions.find? (fun p =>
      p.bot_id == bot_id && p.symbol == symbol && p.status == "open") with
  | none => none
  | some pos =>
    let agg := aggregate_exits_for_position db pos.id
    match agg.1, agg.2.2 with
    | some exit_vwap, some exit_ts =>
      let fee_close := agg.2.1
      let funding_total := funding_window db.fundings pos.bot_id pos.symbol
        pos.opened_at (some exit_ts)
      let pnl := compute_pnl pos.side pos.qty
        ((orElseTruthy pos.entry_price_vwap pos.entry_price_trigger).getD 0)
        exit_vwap pos.fee_open_usdt fee_close - funding_total
      let db1 := finalize_position now db pos.id exit_vwap pnl fee_close (some exit_ts)
      let db2 := consume_execs_for_position db1 pos.id none
      some (pos.id, db1, db2)
    | _, _ => none

/-- `close_if_match`: the durable result is the state after both commits. -/
def close_if_match (now : ℕ) (db : DB) (bot_id : ℕ) (symbol : String) :
    DB × Option ℕ :=
  match close_if_match_plan now db bot_id symbol with
  | none => (db, none)
  | some r => (r.2.2, some r.1)

/-- `reconcile_symbol`: close if a match exists, then open a carry position
if one is missing. -/
def reconcile_symbol (now : ℕ) (db : DB) (bot_id : ℕ) (symbol : String) :
    DB × Bool × Bool :=
  let c := close_if_match now db bot_id symbol
  let o := open_from_execs_if_missing c.1 bot_id symbol
  (o.1, c.2.isSome, o.2.isSome)

/-! ### Claim fixtures and theorems -/

/-- Fixture builder: a canonical ingested fill payload (all fields present,
USDT taker fill). -/
def mkFill (bot : ℕ) (symbol side : String) (price qty fee : ℚ) (ts : ℕ)
    (oid lid eid : String) : FillData :=
  { bot_id := bot, symbol := symbol, side := side, price := some price, qty := qty,
    fee_usdt := fee, reduce_only := false, liquidity := "taker", ts := ts,
    exchange_exec_id := eid, exchange_order_id := oid, order_link_id := lid }

/-- Fixture builder: a fresh open long position as `open_from_execs_if_missing`
would create it (entry vwap/best 100, quantity 1, opening fee 0.1). -/
def mkOpenLong (pid bot : ℕ) (symbol : String) : Position :=
  { id := pid, bot_id := bot, user_id := some 7, symbol := symbol, side := "long",
    status := "open", qty := 1, risk_amount_usdt := none, entry_price_trigger := none,
    entry_price_best := some 100, entry_price_vwap := some 100, exit_price_vwap := none,
    exit_price_best := none, mark_price := none, fee_open_usdt := 1 / 10,
    fee_close_usdt := 0, funding_usdt := 0, pnl_usdt := none,
    slippage_entry_usdt := none, slippage_exit_usdt := none, slippage_timelag_usdt := none,
    timelag_tv_bot_ms := none, timelag_bot_proc_ms := none, timelag_bot_exch_ms := none,
    first_exec_at := some 0, last_exec_at := some 0, opened_at := some 0, closed_at := none }

/-- C1 fixture: an open long (qty 1, entry 100, opened at t=0) and one
unconsumed exit fill (sell 1 @ 105, fee 0.1, t=10). -/
def dbC1 : DB :=
  { bots := [⟨1, 7⟩], settings := [], fundings := [], positions := [mkOpenLong 1 1 "S"],
    execs := [⟨1, mkFill 1 "S" "sell" 105 1 (1 / 10) 10 "B" "" "y1", false⟩],
    next_exec_id := 2, next_pos_id := 2 }

/-- C1: on the incremental close path the Position write and the
consumed-flag write are two separate transactions.  After the first commit
(`_finalize_position`) the durable state already contains the closed Position
while the exit fill folded into it is still unconsumed; only the second
commit (`_consume_execs_for_position`) flips the flag.  A crash between the
two commits therefore leaves exactly the state the specification rules out. -/
theorem c1_incremental_close_not_atomic :
    ((close_if_match_plan 999 dbC1 1 "S").map (fun r =>
        (r.2.1.positions.map (fun p => p.status),
         r.2.1.execs.map (fun e => e.is_consumed),
         r.2.2.positions.map (fun p => p.status),
         r.2.2.execs.map (fun e => e.is_consumed))))
      = some (["closed"], [false], ["closed"], [true]) := by with_unfolding_all decide

/-- C4 fixture: the C1 scenario with a negative (maker-rebate) closing fee on
the exit fill. -/
def dbC4 : DB :=
  { bots := [⟨1, 7⟩], settings := [], fundings := [], positions := [mkOpenLong 1 1 "S"],
    execs := [⟨1, mkFill 1 "S" "sell" 105 1 (-(1 / 10)) 10 "B" "" "y1", false⟩],
    next_exec_id := 2, next_pos_id := 2 }

/-- C4 counterexample: a position closed through `close_if_match` /
`compute_pnl` with closing-fee sum `-0.1` gets
`pnl = (105-100)*1 - 0.1 - (-0.1) - 0 = 5`, not
`gross - |fee_open| - |fee_close| = 4.8` as the claim's formula demands:
`compute_pnl` subtracts its fee arguments as signed values. -/
theorem c4_counterexample :
    ((close_if_match 999 dbC4 1 "S").1.positions.map
        (fun p => (p.status, p.pnl_usdt, p.fee_open_usdt, p.fee_close_usdt, p.funding_usdt)))
      = [("closed", some 5, 1 / 10, -(1 / 10), 0)] ∧
    ((5 : ℚ) ≠ (105 - 100) * 1 - |(1 : ℚ) / 10| - |(-(1 : ℚ) / 10)| - 0) := by
  with_unfolding_all decide

/-- C4 amended: `compute_pnl` equals gross PnL (by side) minus the two fee
arguments taken as signed values; when both fees are non-negative this is
exactly the spec formula `gross - |fee_open| - |fee_close|`, and the two
concrete sign checks of the spec both give 19. -/
theorem c4_amended_pnl_formula (side : String) (qty e m fo fc : ℚ)
    (h1 : 0 ≤ fo) (h2 : 0 ≤ fc) :
    compute_pnl side qty e m fo fc =
      (if side == "long" then (m - e) * qty else (e - m) * qty) - |fo| - |fc| ∧
    compute_pnl "long" 2 100 110 (1 / 2) (1 / 2) = 19 ∧
    compute_pnl "short" 2 100 90 (1 / 2) (1 / 2) = 19 := by
  refine ⟨?_, by with_unfolding_all decide, by with_unfolding_all decide⟩
  simp [compute_pnl, abs_of_nonneg h1, abs_of_nonneg h2]

/-- Witness for `c4_amended_pnl_formula` at the spec's long example. -/
theorem c4_amended_pnl_formula_witness :
    compute_pnl "long" 2 100 110 (1 / 2) (1 / 2) =
      (if ("long" : String) == "long" then ((110 : ℚ) - 100) * 2 else (100 - 110) * 2)
        - |(1 : ℚ) / 2| - |(1 : ℚ) / 2| ∧
    compute_pnl "long" 2 100 110 (1 / 2) (1 / 2) = 19 ∧
    compute_pnl "short" 2 100 90 (1 / 2) (1 / 2) = 19 :=
  c4_amended_pnl_formula "long" 2 100 110 (1 / 2) (1 / 2) (by norm_num) (by norm_num)

/-- The empty store. -/
def dbEmpty : DB :=
  { bots := [], settings := [], execs := [], fundings := [], positions := [],
    next_exec_id := 1, next_pos_id := 1 }

/-- C5 counterexample: a payload that carries no exchange execution id skips
the dedup lookup entirely, so persisting it twice stores two rows, not one. -/
theorem c5_counterexample :
    (persist_execution (persist_execution dbEmpty 1 "S" "buy" 100 1 0 false "taker" 5 "" "" "")
        1 "S" "buy" 100 1 0 false "taker" 5 "" "" "").execs.length = 2 ∧
    (persist_execution (persist_execution dbEmpty 1 "S" "buy" 100 1 0 false "taker" 5 "" "" "")
        1 "S" "buy" 100 1 0 false "taker" 5 "" "" "").execs.length ≠ 1 := by
  with_unfolding_all decide

/-- C5 amended: for a payload that does carry an exchange execution id,
`_persist_execution` is idempotent — persisting the same payload `n + 1`
times equals persisting it once, and when a row with the same
`(bot id, exchange execution id)` already exists the call is a no-op. -/
theorem c5_amended_persist_idempotent (db : DB) (bid : ℕ) (sym side : String)
    (price qty fee : ℚ) (cl : Bool) (liq : String) (ts : ℕ) (eid oid lid : String)
    (h : eid ≠ "") :
    (∀ n : ℕ,
      (fun d => persist_execution d bid sym side price qty fee cl liq ts eid oid lid)^[n + 1] db
        = persist_execution db bid sym side price qty fee cl liq ts eid oid lid) ∧
    (db.execs.any (fun e => e.d.bot_id == bid && e.d.exchange_exec_id == eid) = true →
      persist_execution db bid sym side price qty fee cl liq ts eid oid lid = db) := by
  have hbne : (eid != "") = true := bne_iff_ne.mpr h
  have hskip : ∀ d : DB,
      d.execs.any (fun e => e.d.bot_id == bid && e.d.exchange_exec_id == eid) = true →
      persist_execution d bid sym side price qty fee cl liq ts eid oid lid = d := by
    intro d hd
    unfold persist_execution
    rw [if_pos (by simp [hbne, hd])]
  have hidem :
      persist_execution (persist_execution db bid sym side price qty fee cl liq ts eid oid lid)
        bid sym side price qty fee cl liq ts eid oid lid
        = persist_execution db bid sym side price qty fee cl liq ts eid oid lid := by
    by_cases hx :
      (db.execs.any fun e => e.d.bot_id == bid && e.d.exchange_exec_id == eid) = true
    · rw [hskip db hx]
      exact hskip db hx
    · apply hskip
      have hfdb :
          (persist_execution db bid sym side price qty fee cl liq ts eid oid lid).execs
            = db.execs ++
              [{ id := db.next_exec_id
                 d := { bot_id := bid, symbol := sym, side := side, price := some price,
                        qty := qty, fee_usdt := fee, reduce_only := cl, liquidity := liq,
                        ts := ts, exchange_exec_id := eid, exchange_order_id := oid,
                        order_link_id := lid }
                 is_consumed := false }] := by
        unfold persist_execution
        rw [if_neg (by simp [hx])]
      rw [hfdb, List.any_append]
      simp
  refine ⟨?_, hskip db⟩
  intro n
  rw [Function.iterate_succ_apply]
  exact @Function.iterate_fixed DB
    (fun d => persist_execution d bid sym side price qty fee cl liq ts eid oid lid)
    (persist_execution db bid sym side price qty fee cl liq ts eid oid lid) hidem n

/-- Witness for `c5_amended_persist_idempotent`: double-persisting a payload
with execution id `"E"` into the empty store equals persisting it once. -/
theorem c5_amended_persist_idempotent_witness :
    (fun d => persist_execution d 1 "S" "buy" 100 1 0 false "taker" 5 "E" "" "")^[1] dbEmpty
      = persist_execution dbEmpty 1 "S" "buy" 100 1 0 false "taker" 5 "E" "" "" :=
  (c5_amended_persist_idempotent dbEmpty 1 "S" "buy" 100 1 0 false "taker" 5 "E" "" ""
    (by with_unfolding_all decide)).1 0

/-- C6 fixture: exactly the spec scenario — buy 1.0 @ 100 (fee 0.1, t=0) and
sell 1.0 @ 105 (fee 0.1, t=10) on two exchange orders, no funding events. -/
def dbC6 : DB :=
  { bots := [⟨1, 7⟩], settings := [], fundings := [], positions := [],
    execs := [⟨1, mkFill 1 "BTCUSDT" "buy" 100 1 (1 / 10) 0 "A" "" "e1", false⟩,
              ⟨2, mkFill 1 "BTCUSDT" "sell" 105 1 (1 / 10) 10 "B" "" "e2", false⟩],
    next_exec_id := 3, next_pos_id := 1 }

/-- C6: a full rebuild over the two-fill scenario produces exactly one closed
long position with qty 1, entry vwap 100, exit vwap 105 and
pnl = 105 - 100 - 0.1 - 0.1 = 4.8, and both fills are consumed. -/
theorem c6_scenario_round_trip :
    ((rebuild_positions_orderlink 1000000 dbC6 1).1.positions.map
        (fun p => (p.status, p.side))) = [("closed", "long")] ∧
    ((rebuild_positions_orderlink 1000000 dbC6 1).1.positions.map (fun p => p.qty)) = [1] ∧
    ((rebuild_positions_orderlink 1000000 dbC6 1).1.positions.map
        (fun p => p.entry_price_vwap)) = [some 100] ∧
    ((rebuild_positions_orderlink 1000000 dbC6 1).1.positions.map
        (fun p => p.exit_price_vwap)) = [some 105] ∧
    ((rebuild_positions_orderlink 1000000 dbC6 1).1.positions.map
        (fun p => p.pnl_usdt)) = [some (24 / 5)] ∧
    (rebuild_positions_orderlink 1000000 dbC6 1).2 = 1 ∧
    ((rebuild_positions_orderlink 1000000 dbC6 1).1.execs.map (fun e => e.is_consumed))
      = [true, true] :=
  of_decide_eq_true (by with_unfolding_all rfl)

/-- The spec's wording of the dominant-side rule, for comparison with the
code: majority of the group's fill sides, tie broken toward buy. -/
def spec_majority_side (lst : List IRow) : String :=
  let buys := (lst.filter (fun r => r.2.side == "buy")).length
  let sells := (lst.filter (fun r => r.2.side == "sell")).length
  if sells > buys then "sell" else "buy"

/-- C7 counterexample group: one sell at t=0 followed by two buys. -/
def rowsC7 : List IRow :=
  [(0, mkFill 1 "S" "sell" 100 1 0 0 "K" "" "a"),
   (1, mkFill 1 "S" "buy" 101 1 0 1 "K" "" "b"),
   (2, mkFill 1 "S" "buy" 102 1 0 2 "K" "" "c")]

/-- C7 counterexample: the code picks the side of the earliest fill (here the
lone sell at t=0), not the majority side (buy, 2 of 3). -/
theorem c7_counterexample :
    (mkGroup rowsC7).side = "sell" ∧ spec_majority_side rowsC7 = "buy" ∧
    (mkGroup rowsC7).side ≠ spec_majority_side rowsC7 := by with_unfolding_all decide

/-- C8 fixture: a single already-closed position (pnl 4.8, exit 105) with no
unconsumed executions; `mark_price` is 0. -/
def dbC8 : DB :=
  { bots := [⟨1, 7⟩], settings := [], fundings := [],
    positions := [{ mkOpenLong 1 1 "S" with
      status := "closed"
      exit_price_vwap := some 105
      exit_price_best := some 105
      pnl_usdt := some (24 / 5)
      fee_close_usdt := 1 / 10
      closed_at := some 10
      mark_price := some 0 }],
    execs := [], next_exec_id := 1, next_pos_id := 2 }

/-- C8 counterexample: `handle_position_close` has no status guard — invoked
on the already-closed position it re-finalizes it, overwriting pnl with the
mark-price fallback result `(0 - 100)*1 - 0.1 = -100.1`. -/
theorem c8_counterexample :
    (dbC8.positions.map (fun p => (p.status, p.pnl_usdt)) = [("closed", some (24 / 5))]) ∧
    (handle_position_close 999 dbC8 1 none).1.positions ≠ dbC8.positions ∧
    ((handle_position_close 999 dbC8 1 none).1.positions.map (fun p => p.pnl_usdt))
      = [some (-(1001 / 10))] :=
  of_decide_eq_true (by with_unfolding_all rfl)

/-- C8 amended: the event-driven close path `close_if_match` is guarded at
selection — when no open position exists for the key (in particular when the
position is already closed) it returns `None` and leaves the store
untouched; the unguarded re-finalization is only reachable through
`handle_position_close` on an explicit position id. -/
theorem c8_amended_close_guarded (now : ℕ) (db : DB) (bot : ℕ) (sym : String)
    (h : ∀ p ∈ db.positions, ¬(p.bot_id = bot ∧ p.symbol = sym ∧ p.status = "open")) :
    close_if_match now db bot sym = (db, none) := by
  have hf : db.positions.find?
      (fun p => p.bot_id == bot && p.symbol == sym && p.status == "open") = none := by
    rw [List.find?_eq_none]
    intro p hp
    simp only [Bool.and_eq_true, beq_iff_eq]
    intro hc
    exact h p hp ⟨hc.1.1, hc.1.2, hc.2⟩
  simp [close_if_match, close_if_match_plan, hf]

/-- Witness for `c8_amended_close_guarded` on the closed-position store. -/
theorem c8_amended_close_guarded_witness :
    close_if_match 999 dbC8 1 "S" = (dbC8, none) :=
  c8_amended_close_guarded 999 dbC8 1 "S" (by with_unfolding_all decide)

/-- Flagging an already-consumed row is the identity. -/
theorem exec_flag_eta (e : Exec) (h : e.is_consumed = true) :
    ({ e with is_consumed := true } : Exec) = e := by
  cases e
  simp_all

/-- The boolean row filter of `_consume_execs_for_position`, as a
proposition. -/
theorem consume_cond_iff (pos : Position) (oa E : ℕ) (e : Exec) :
    (e.d.bot_id == pos.bot_id && e.d.symbol == pos.symbol &&
        decide (oa ≤ e.d.ts) && decide (e.d.ts ≤ E) && !e.is_consumed) = true ↔
      ((e.d.bot_id = pos.bot_id ∧ e.d.symbol = pos.symbol ∧ oa ≤ e.d.ts ∧ e.d.ts ≤ E) ∧
        e.is_consumed = false) := by
  simp [and_assoc]

/-- C10: after `_consume_execs_for_position` for a position with
`opened_at = oa`, writing `E` for the resolved window end
(`upto_ts`, else `closed_at`, else `last_exec_at`, else `opened_at`), every
stored execution of the same `(bot, symbol)` with `oa ≤ ts ≤ E` — whatever
its side and whether or not its quantity was folded into the position — is
consumed, and every other execution row and the whole positions table are
unchanged. -/
theorem c10_consume_window_frame (db : DB) (pid : ℕ) (upto : Option ℕ)
    (pos : Position) (oa : ℕ)
    (hfind : db.positions.find? (fun p => p.id == pid) = some pos)
    (hoa : pos.opened_at = some oa) :
    ((consume_execs_for_position db pid upto).positions = db.positions) ∧
    ((consume_execs_for_position db pid upto).execs.length = db.execs.length) ∧
    (∀ (i : ℕ) (e : Exec), db.execs[i]? = some e →
      (consume_execs_for_position db pid upto).execs[i]? =
        some (if e.d.bot_id = pos.bot_id ∧ e.d.symbol = pos.symbol ∧ oa ≤ e.d.ts ∧
                e.d.ts ≤ (((upto.orElse (fun _ => pos.closed_at)).orElse
                  (fun _ => pos.last_exec_at)).getD oa)
              then { e with is_consumed := true } else e)) := by
  have hc : consume_execs_for_position db pid upto =
      { db with execs := db.execs.map (fun e =>
          if e.d.bot_id == pos.bot_id && e.d.symbol == pos.symbol &&
              decide (oa ≤ e.d.ts) &&
              decide (e.d.ts ≤ (((upto.orElse (fun _ => pos.closed_at)).orElse
                (fun _ => pos.last_exec_at)).getD oa)) && !e.is_consumed
          then { e with is_consumed := true } else e) } := by
    simp only [consume_execs_for_position, hfind, hoa]
  refine ⟨by rw [hc], by rw [hc]; exact List.length_map _ _, ?_⟩
  intro i e he
  rw [hc]
  simp only [List.getElem?_map, he, Option.map_some']
  by_cases hw : e.d.bot_id = pos.bot_id ∧ e.d.symbol = pos.symbol ∧ oa ≤ e.d.ts ∧
      e.d.ts ≤ (((upto.orElse (fun _ => pos.closed_at)).orElse
        (fun _ => pos.last_exec_at)).getD oa)
  · rw [if_pos hw]
    cases hcons : e.is_consumed with
    | true =>
      rw [if_neg (by simp), exec_flag_eta e hcons]
    | false =>
      rw [if_pos (by simp [hw.1, hw.2.1, hw.2.2.1, hw.2.2.2])]
  · rw [if_neg hw, if_neg (by rw [consume_cond_iff]; exact fun hcon => hw hcon.1)]

/-- C10 fixture position: an open long with window `[0, closed_at 10]`. -/
def posC10 : Position :=
  { mkOpenLong 1 1 "S" with closed_at := some 10 }

/-- C10 fixture store: a same-side (buy) fill at t=5 inside the window — not
foldable into the long position — and a sell fill at t=50 outside it. -/
def dbC10 : DB :=
  { bots := [⟨1, 7⟩], settings := [], fundings := [], positions := [posC10],
    execs := [⟨1, mkFill 1 "S" "buy" 101 1 0 5 "A" "" "w1", false⟩,
              ⟨2, mkFill 1 "S" "sell" 105 1 0 50 "B" "" "w2", false⟩],
    next_exec_id := 3, next_pos_id := 2 }

/-- Witness for `c10_consume_window_frame` on the fixture store. -/
theorem c10_consume_window_frame_witness :
    ((consume_execs_for_position dbC10 1 none).positions = dbC10.positions) ∧
    ((consume_execs_for_position dbC10 1 none).execs.length = dbC10.execs.length) ∧
    (∀ (i : ℕ) (e : Exec), dbC10.execs[i]? = some e →
      (consume_execs_for_position dbC10 1 none).execs[i]? =
        some (if e.d.bot_id = posC10.bot_id ∧ e.d.symbol = posC10.symbol ∧ 0 ≤ e.d.ts ∧
                e.d.ts ≤ ((((none : Option ℕ).orElse (fun _ => posC10.closed_at)).orElse
                  (fun _ => posC10.last_exec_at)).getD 0)
              then { e with is_consumed := true } else e)) :=
  c10_consume_window_frame dbC10 1 none posC10 0 (by with_unfolding_all decide) rfl

/-- `updatePos` only rewrites the positions table. -/
theorem updatePos_execs (db : DB) (pid : ℕ) (f : Position → Position) :
    (updatePos db pid f).execs = db.execs := rfl

/-- `_finalize_position` only rewrites the positions table. -/
theorem finalize_execs (now : ℕ) (db : DB) (pid : ℕ) (a b c : ℚ) (d : Option ℕ) :
    (finalize_position now db pid a b c d).execs = db.execs := rfl

/-- The executions table after a rebuild: unchanged, or a pointwise map that
only switches `is_consumed` on. -/
theorem rebuild_execs_shape (now : ℕ) (db : DB) (bot : ℕ) :
    (rebuild_positions_orderlink now db bot).1.execs = db.execs ∨
    ∃ q : Exec → Bool, (rebuild_positions_orderlink now db bot).1.execs
      = db.execs.map (fun e => if q e then { e with is_consumed := true } else e) := by
  simp only [rebuild_positions_orderlink]
  split
  · exact Or.inl rfl
  · exact Or.inr ⟨_, rfl⟩

/-- The executions table after `_consume_execs_for_position`: unchanged, or a
pointwise map that only switches `is_consumed` on. -/
theorem consume_execs_shape (db : DB) (pid : ℕ) (upto : Option ℕ) :
    (consume_execs_for_position db pid upto).execs = db.execs ∨
    ∃ q : Exec → Bool, (consume_execs_for_position db pid upto).execs
      = db.execs.map (fun e => if q e then { e with is_consumed := true } else e) := by
  unfold consume_execs_for_position
  split
  · exact Or.inl rfl
  · split
    · exact Or.inl rfl
    · exact Or.inr ⟨_, rfl⟩

/-- `open_from_execs_if_missing` never touches the executions table. -/
theorem open_from_execs (db : DB) (b : ℕ) (s : String) :
    (open_from_execs_if_missing db b s).1.execs = db.execs := by
  unfold open_from_execs_if_missing
  split
  · rfl
  · split <;> rfl

/-- The executions table after `close_if_match`: unchanged, or a pointwise
map that only switches `is_consumed` on. -/
theorem close_execs_shape (now : ℕ) (db : DB) (b : ℕ) (s : String) :
    (close_if_match now db b s).1.execs = db.execs ∨
    ∃ q : Exec → Bool, (close_if_match now db b s).1.execs
      = db.execs.map (fun e => if q e then { e with is_consumed := true } else e) := by
  unfold close_if_match
  cases hplan : close_if_match_plan now db b s with
  | none => exact Or.inl rfl
  | some r =>
    simp only
    unfold close_if_match_plan at hplan
    dsimp only at hplan
    split at hplan
    · exact absurd hplan (by simp)
    · split at hplan
      · cases hplan
        rcases consume_execs_shape
            (finalize_position now db _ _ _ _ _) _ none with hsh | ⟨q, hsh⟩
        · exact Or.inl (by rw [hsh, finalize_execs])
        · exact Or.inr ⟨q, by rw [hsh, finalize_execs]⟩
      · exact absurd hplan (by simp)

/-- Length preservation and consumed-flag monotonicity, from either shape. -/
theorem mono_of_shape {l q : List Exec}
    (h : q = l ∨ ∃ c : Exec → Bool,
      q = l.map (fun e => if c e then { e with is_consumed := true } else e)) :
    q.length = l.length ∧
    ∀ i : ℕ, (l[i]?.map (fun e => e.is_consumed)) = some true →
      (q[i]?.map (fun e => e.is_consumed)) = some true := by
  rcases h with h | ⟨c, h⟩
  · subst h
    exact ⟨rfl, fun i hi => hi⟩
  · subst h
    refine ⟨List.length_map _ _, fun i hi => ?_⟩
    rw [List.getElem?_map]
    cases he : l[i]? with
    | none => rw [he] at hi; cases hi
    | some e =>
      rw [he] at hi
      simp only [Option.map_some'] at hi ⊢
      split
      · rfl
      · exact hi

/-- Over a fill set whose fills for this bot are all consumed, the rebuild is
a strict no-op: it returns the store unchanged and creates zero positions. -/
theorem rebuild_consumed_noop (now : ℕ) (db : DB) (bot : ℕ)
    (h : ∀ e ∈ db.execs, e.d.bot_id = bot → e.is_consumed = true) :
    rebuild_positions_orderlink now db bot = (db, 0) := by
  have hsel : db.execs.filter (fun e => e.d.bot_id == bot && !e.is_consumed) = [] := by
    rw [List.filter_eq_nil_iff]
    intro e he
    simp only [Bool.and_eq_true, beq_iff_eq, Bool.not_eq_true', not_and]
    intro hb
    rw [h e he hb]
    simp
  unfold rebuild_positions_orderlink
  rw [hsel]
  rfl

/-- Over an all-consumed fill set `close_if_match` is a no-op. -/
theorem close_consumed_noop (now : ℕ) (db : DB) (b : ℕ) (s : String)
    (h : ∀ e ∈ db.execs, e.is_consumed = true) :
    close_if_match now db b s = (db, none) := by
  have hagg : ∀ pid : ℕ, aggregate_exits_for_position db pid = (none, 0, none) := by
    intro pid
    unfold aggregate_exits_for_position
    cases hf2 : db.positions.find? (fun p => p.id == pid) with
    | none => rfl
    | some p2 =>
      simp only
      cases ho : p2.opened_at with
      | none => rfl
      | some oa =>
        simp only
        split
        · rfl
        · have hfilter : db.execs.filter (fun e =>
              e.d.bot_id == p2.bot_id && e.d.symbol == p2.symbol &&
              decide (oa ≤ e.d.ts) && !e.is_consumed) = [] := by
            rw [List.filter_eq_nil_iff]
            intro e he
            simp [h e he]
          rw [hfilter]
          rfl
  unfold close_if_match close_if_match_plan
  cases hfind : db.positions.find?
      (fun p => p.bot_id == b && p.symbol == s && p.status == "open") with
  | none => rfl
  | some pos =>
    simp only [hagg pos.id]

/-- Over an all-consumed fill set `open_from_execs_if_missing` is a no-op. -/
theorem open_from_consumed_noop (db : DB) (b : ℕ) (s : String)
    (h : ∀ e ∈ db.execs, e.is_consumed = true) :
    open_from_execs_if_missing db b s = (db, none) := by
  unfold open_from_execs_if_missing
  split
  · rfl
  · have hagg : aggregate_entries_for_open db b s = none := by
      unfold aggregate_entries_for_open
      have hfilter : db.execs.filter (fun e =>
          e.d.bot_id == b && e.d.symbol == s && !e.is_consumed) = [] := by
        rw [List.filter_eq_nil_iff]
        intro e he
        simp [h e he]
      rw [hfilter]
      rfl
    rw [hagg]

/-- C2: consumed flags are monotone — both reconciliation entry points keep
every stored row (same length, same index) and never reset a consumed flag;
the reconciliation selections only ever return unconsumed fills; and
re-running either entry point over an already fully-consumed fill set
creates zero new positions (the rebuild is even a strict no-op). -/
theorem c2_at_most_once_consumption (now bot : ℕ) (sym : String) (db : DB) :
    ((rebuild_positions_orderlink now db bot).1.execs.length = db.execs.length ∧
      ∀ i : ℕ, (db.execs[i]?.map (fun e => e.is_consumed)) = some true →
        ((rebuild_positions_orderlink now db bot).1.execs[i]?.map
          (fun e => e.is_consumed)) = some true) ∧
    ((reconcile_symbol now db bot sym).1.execs.length = db.execs.length ∧
      ∀ i : ℕ, (db.execs[i]?.map (fun e => e.is_consumed)) = some true →
        ((reconcile_symbol now db bot sym).1.execs[i]?.map
          (fun e => e.is_consumed)) = some true) ∧
    (∀ (q : Exec → Bool) (e : Exec),
      e ∈ db.execs.filter (fun x => q x && !x.is_consumed) → e.is_consumed = false) ∧
    ((∀ e ∈ db.execs, e.d.bot_id = bot → e.is_consumed = true) →
      rebuild_positions_orderlink now db bot = (db, 0)) ∧
    ((∀ e ∈ db.execs, e.is_consumed = true) →
      (reconcile_symbol now db bot sym).1.positions = db.positions) := by
  have hre : (reconcile_symbol now db bot sym).1.execs
      = (close_if_match now db bot sym).1.execs := by
    unfold reconcile_symbol
    exact open_from_execs _ _ _
  refine ⟨mono_of_shape (rebuild_execs_shape now db bot), ?_, ?_, ?_, ?_⟩
  · have hm := mono_of_shape (close_execs_shape now db bot sym)
    rw [← hre] at hm
    exact hm
  · intro q e he
    have hmem := List.mem_filter.mp he
    have := hmem.2
    simp only [Bool.and_eq_true, Bool.not_eq_true'] at this
    exact this.2
  · exact rebuild_consumed_noop now db bot
  · intro h
    unfold reconcile_symbol
    rw [close_consumed_noop now db bot sym h]
    dsimp only
    rw [open_from_consumed_noop db bot sym h]

/-- C2 fixture: a store whose only fill is already consumed. -/
def dbC2 : DB :=
  { bots := [⟨1, 7⟩], settings := [], fundings := [], positions := [],
    execs := [⟨1, mkFill 1 "S" "buy" 100 1 0 5 "A" "" "z1", true⟩],
    next_exec_id := 2, next_pos_id := 1 }

/-- Witness for `c2_at_most_once_consumption`: on the all-consumed store both
entry points create nothing. -/
theorem c2_at_most_once_consumption_witness :
    rebuild_positions_orderlink 5 dbC2 1 = (dbC2, 0) ∧
    (reconcile_symbol 5 dbC2 1 "S").1.positions = dbC2.positions :=
  ⟨(c2_at_most_once_consumption 5 1 "S" dbC2).2.2.2.1 (by with_unfolding_all decide),
   (c2_at_most_once_consumption 5 1 "S" dbC2).2.2.2.2 (by with_unfolding_all decide)⟩

/-- `List.min?` on naturals, elementwise. -/
theorem natMin_eq_some_iff {l : List ℕ} {a : ℕ} :
    l.min? = some a ↔ a ∈ l ∧ ∀ b ∈ l, a ≤ b := by
  haveI : Std.Antisymm (fun (x y : ℕ) => x ≤ y) := ⟨fun h1 h2 => Nat.le_antisymm h1 h2⟩
  exact List.min?_eq_some_iff (fun a => Nat.le_refl a) (fun a b => min_choice a b)
    (fun _ _ _ => le_min_iff)

/-- `firstTsOfSide` described elementwise: the earliest timestamp among the
fills of one side. -/
theorem firstTsOfSide_eq_some_iff (lst : List IRow) (s : String) (b : ℕ) :
    firstTsOfSide lst s = some b ↔
      (∃ r ∈ lst, r.2.side = s ∧ r.2.ts = b) ∧
        (∀ r ∈ lst, r.2.side = s → b ≤ r.2.ts) := by
  unfold firstTsOfSide
  rw [natMin_eq_some_iff]
  constructor
  · rintro ⟨hmem, hall⟩
    obtain ⟨r, hrf, hts⟩ := List.mem_map.mp hmem
    have hrl := List.mem_filter.mp hrf
    refine ⟨⟨r, hrl.1, by simpa using hrl.2, hts⟩, ?_⟩
    intro r2 hr2 hside2
    exact hall r2.2.ts
      (List.mem_map.mpr ⟨r2, List.mem_filter.mpr ⟨hr2, by simp [hside2]⟩, rfl⟩)
  · rintro ⟨⟨r, hr, hside, hts⟩, hall⟩
    constructor
    · exact List.mem_map.mpr ⟨r, List.mem_filter.mpr ⟨hr, by simp [hside]⟩, hts⟩
    · intro t ht
      obtain ⟨r2, hr2f, hts2⟩ := List.mem_map.mp ht
      have hr2l := List.mem_filter.mp hr2f
      exact hts2 ▸ hall r2 hr2l.1 (by simpa using hr2l.2)

/-- `firstTsOfSide` is `none` exactly when the group has no fill of that
side. -/
theorem firstTsOfSide_eq_none_iff (lst : List IRow) (s : String) :
    firstTsOfSide lst s = none ↔ ∀ r ∈ lst, r.2.side ≠ s := by
  unfold firstTsOfSide
  rw [List.min?_eq_none_iff, List.map_eq_nil_iff, List.filter_eq_nil_iff]
  constructor
  · exact fun h r hr hside => h r hr (by simp [hside])
  · exact fun h r hr hb => h r hr (by simpa using hb)

/-- C7 amended: for a non-empty group whose fills are buy/sell with
non-negative quantities, the computed aggregate satisfies: quantity is the
sum of fill quantities; when that sum is positive the VWAP is
Σ price·qty / Σ qty; the best price is the minimum present fill price for a
buy group and the maximum for a sell group; the fee is the fee sum; and the
dominant side is the side of the earliest-timestamped fill — a tie between
the earliest buy and the earliest sell resolves to buy — not the majority
side. -/
theorem c7_amended_group_attributes (lst : List IRow) (hne : lst ≠ [])
    (hsides : ∀ r ∈ lst, r.2.side = "buy" ∨ r.2.side = "sell")
    (hqty : ∀ r ∈ lst, 0 ≤ r.2.qty) :
    ((mkGroup lst).qty = (lst.map (fun r => r.2.qty)).sum) ∧
    (0 < (lst.map (fun r => r.2.qty)).sum →
      (mkGroup lst).vwap = some ((lst.map (fun r => r.2.price.getD 0 * r.2.qty)).sum /
        (lst.map (fun r => r.2.qty)).sum)) ∧
    ((mkGroup lst).side = "buy" →
      (mkGroup lst).best = (lst.filterMap (fun r => r.2.price)).min?) ∧
    ((mkGroup lst).side = "sell" →
      (mkGroup lst).best = (lst.filterMap (fun r => r.2.price)).max?) ∧
    ((mkGroup lst).fee_sum = (lst.map (fun r => r.2.fee_usdt)).sum) ∧
    ((mkGroup lst).side = "buy" ↔
      ∃ r ∈ lst, r.2.side = "buy" ∧ ∀ x ∈ lst, r.2.ts ≤ x.2.ts) := by
  have hsum : ((lst.map (fun r => r.2)).map (fun d => d.qty)).sum
      = (lst.map (fun r => r.2.qty)).sum := by
    rw [List.map_map]
    rfl
  have hprod : ((lst.map (fun r => r.2)).map (fun d => d.price.getD 0 * d.qty)).sum
      = (lst.map (fun r => r.2.price.getD 0 * r.2.qty)).sum := by
    rw [List.map_map]
    rfl
  have hfm : (lst.map (fun r => r.2)).filterMap (fun d => d.price)
      = lst.filterMap (fun r => r.2.price) := by
    rw [List.filterMap_map]
    rfl
  have hnonneg : 0 ≤ (lst.map (fun r => r.2.qty)).sum := by
    apply List.sum_nonneg
    intro x hx
    obtain ⟨r, hr, hrx⟩ := List.mem_map.mp hx
    exact hrx ▸ hqty r hr
  refine ⟨?_, ?_, ?_, ?_, rfl, ?_⟩
  · show (vwap_q (lst.map (fun r => r.2))).2 = _
    simp only [vwap_q, hsum, hprod]
    split
    · next hle => exact (le_antisymm hle hnonneg).symm
    · rfl
  · intro hpos
    show (vwap_q (lst.map (fun r => r.2))).1 = _
    simp only [vwap_q, hsum, hprod]
    rw [if_neg (not_le.mpr hpos)]
  · intro hside
    show best_price (lst.map (fun r => r.2)) (mkGroup lst).side = _
    rw [hside]
    unfold best_price
    rw [hfm]
    by_cases hpe : (lst.filterMap (fun r => r.2.price)).isEmpty = true
    · rw [if_pos hpe, List.isEmpty_iff.mp hpe]
      rfl
    · rw [if_neg hpe]
      rfl
  · intro hside
    show best_price (lst.map (fun r => r.2)) (mkGroup lst).side = _
    rw [hside]
    unfold best_price
    rw [hfm]
    by_cases hpe : (lst.filterMap (fun r => r.2.price)).isEmpty = true
    · rw [if_pos hpe, List.isEmpty_iff.mp hpe]
      rfl
    · rw [if_neg hpe]
      rfl
  · show (match firstTsOfSide lst "buy", firstTsOfSide lst "sell" with
      | some b, some s => if b ≤ s then "buy" else "sell"
      | some _, none => "buy"
      | none, _ => "sell") = "buy" ↔ _
    cases hfb : firstTsOfSide lst "buy" with
    | none =>
      constructor
      · intro hif
        cases hfs : firstTsOfSide lst "sell" <;> rw [hfs] at hif <;>
          exact absurd (show ("sell" : String) = "buy" from hif) (by decide)
      · rintro ⟨r, hr, hside, _⟩
        exact absurd hside ((firstTsOfSide_eq_none_iff lst "buy").mp hfb r hr)
    | some b =>
      obtain ⟨⟨rb, hrb, hrbside, hrbts⟩, hballe⟩ :=
        (firstTsOfSide_eq_some_iff lst "buy" b).mp hfb
      cases hfs : firstTsOfSide lst "sell" with
      | none =>
        constructor
        · intro _
          refine ⟨rb, hrb, hrbside, fun x hx => ?_⟩
          rcases hsides x hx with hxb | hxs
          · exact hrbts ▸ hballe x hx hxb
          · exact absurd hxs ((firstTsOfSide_eq_none_iff lst "sell").mp hfs x hx)
        · intro _
          rfl
      | some sm =>
        obtain ⟨⟨rs, hrs, hrsside, hrsts⟩, hsalle⟩ :=
          (firstTsOfSide_eq_some_iff lst "sell" sm).mp hfs
        constructor
        · intro hif
          have hif2 : (if b ≤ sm then "buy" else "sell") = "buy" := hif
          have hbs : b ≤ sm := by
            by_contra hbs
            rw [if_neg hbs] at hif2
            exact absurd hif2 (by decide)
          refine ⟨rb, hrb, hrbside, fun x hx => ?_⟩
          rcases hsides x hx with hxb | hxs
          · exact hrbts ▸ hballe x hx hxb
          · exact hrbts ▸ le_trans hbs (hsalle x hx hxs)
        · rintro ⟨r, hr, hrside, hrmin⟩
          have hble : b ≤ r.2.ts := hballe r hr hrside
          have hrleb : r.2.ts ≤ rb.2.ts := hrmin rb hrb
          have hbeq : b = r.2.ts := le_antisymm hble (hrbts ▸ hrleb)
          have hbs : b ≤ sm := by
            rw [hbeq, ← hrsts]
            exact hrmin rs hrs
          show (if b ≤ sm then "buy" else "sell") = "buy"
          rw [if_pos hbs]

/-- Witness for `c7_amended_group_attributes` on the counterexample group. -/
theorem c7_amended_group_attributes_witness :
    ((mkGroup rowsC7).qty = (rowsC7.map (fun r => r.2.qty)).sum) ∧
    (0 < (rowsC7.map (fun r => r.2.qty)).sum →
      (mkGroup rowsC7).vwap = some ((rowsC7.map (fun r => r.2.price.getD 0 * r.2.qty)).sum /
        (rowsC7.map (fun r => r.2.qty)).sum)) ∧
    ((mkGroup rowsC7).side = "buy" →
      (mkGroup rowsC7).best = (rowsC7.filterMap (fun r => r.2.price)).min?) ∧
    ((mkGroup rowsC7).side = "sell" →
      (mkGroup rowsC7).best = (rowsC7.filterMap (fun r => r.2.price)).max?) ∧
    ((mkGroup rowsC7).fee_sum = (rowsC7.map (fun r => r.2.fee_usdt)).sum) ∧
    ((mkGroup rowsC7).side = "buy" ↔
      ∃ r ∈ rowsC7, r.2.side = "buy" ∧ ∀ x ∈ rowsC7, r.2.ts ≤ x.2.ts) :=
  c7_amended_group_attributes rowsC7 (by with_unfolding_all decide)
    (by with_unfolding_all decide) (by with_unfolding_all decide)

/-- Number of open positions stored for one `(bot, symbol)` key. -/
def countOpen (l : List Position) (bot : ℕ) (sym : String) : ℕ :=
  l.countP (fun p => p.bot_id == bot && p.symbol == sym && p.status == "open")

/-- The one-open-position-per-key invariant over a positions table. -/
def atMostOneOpen (l : List Position) : Prop :=
  ∀ bot sym, countOpen l bot sym ≤ 1

theorem countOpen_append (l1 l2 : List Position) (b : ℕ) (s : String) :
    countOpen (l1 ++ l2) b s = countOpen l1 b s + countOpen l2 b s :=
  List.countP_append _ _ _

/-- Appending one closed position never changes an open count. -/
theorem countOpen_append_closed (l : List Position) (p : Position) (b : ℕ) (s : String)
    (h : p.status = "closed") :
    countOpen (l ++ [p]) b s = countOpen l b s := by
  rw [countOpen_append]
  have : countOpen [p] b s = 0 := by
    simp [countOpen, List.countP_cons, h]
  rw [this]
  rw [Nat.add_zero]

theorem mkPairPosition_status (ctx : SymCtx) (sym : String) (n : ℕ) (g1 g2 : Group) :
    (mkPairPosition ctx sym n g1 g2).status = "closed" := rfl

theorem mkNetPosition_status (ctx : SymCtx) (sym : String) (n b : ℕ)
    (fs : Option String) (o c : Option ℕ) (en ex : List IRow) (f1 f2 : ℚ) :
    (mkNetPosition ctx sym n b fs o c en ex f1 f2).status = "closed" := rfl

theorem mkAutoPosition_status (ctx : SymCtx) (sym : String) (n b : ℕ)
    (fs : Option String) (o : Option ℕ) (lt : ℕ) (lp : ℚ) (en : List IRow) (f1 f2 : ℚ) :
    (mkAutoPosition ctx sym n b fs o lt lp en f1 f2).status = "closed" := rfl

/-- The pairing loop only appends closed positions: open counts are
untouched. -/
theorem pairStep_countOpen (ctx : SymCtx) (sym : String) (agg : List Group) :
    ∀ (fuel i : ℕ) (st : RbState) (b : ℕ) (s : String),
      countOpen (pairStep ctx sym agg fuel i st).positions b s
        = countOpen st.positions b s := by
  intro fuel
  induction fuel with
  | zero => intro i st b s; rfl
  | succ n ih =>
    intro i st b s
    unfold pairStep
    split
    · dsimp only
      repeat' split
      all_goals
        first
        | rfl
        | (rw [ih]
           exact countOpen_append_closed _ _ _ _ (mkPairPosition_status ctx sym _ _ _))
        | exact ih _ _ _ _
    · rfl

/-- One netting iteration only appends closed positions. -/
theorem nettingStep_countOpen (ctx : SymCtx) (sym : String) (st : NetState) (e : IRow)
    (b : ℕ) (s : String) :
    countOpen (nettingStep ctx sym st e).rb.positions b s
      = countOpen st.rb.positions b s := by
  unfold nettingStep
  dsimp only
  repeat' split
  all_goals
    first
    | rfl
    | exact countOpen_append_closed _ _ _ _
        (mkNetPosition_status ctx sym _ _ _ _ _ _ _ _ _)

/-- The whole netting fold only appends closed positions. -/
theorem nettingFold_countOpen (ctx : SymCtx) (sym : String) :
    ∀ (rows : List IRow) (st : NetState) (b : ℕ) (s : String),
      countOpen ((rows.foldl (nettingStep ctx sym) st).rb.positions) b s
        = countOpen st.rb.positions b s := by
  intro rows
  induction rows with
  | nil => intro st b s; rfl
  | cons e t ih =>
    intro st b s
    rw [List.foldl_cons, ih, nettingStep_countOpen]

/-- The auto-close step only appends closed positions. -/
theorem autoClose_countOpen (ctx : SymCtx) (sym : String) (remaining : List IRow)
    (st : NetState) (b : ℕ) (s : String) :
    countOpen ((autoClose ctx sym remaining st).rb.positions) b s
      = countOpen st.rb.positions b s := by
  unfold autoClose
  dsimp only
  repeat' split
  all_goals
    first
    | rfl
    | exact countOpen_append_closed _ _ _ _
        (mkAutoPosition_status ctx sym _ _ _ _ _ _ _ _ _)

/-- Projections of the carry position. -/
theorem mkCarryPosition_fields (ctx : SymCtx) (sym : String) (st : RbState) (g : Group) :
    (mkCarryPosition ctx sym st g).status = "open" ∧
    (mkCarryPosition ctx sym st g).bot_id = g.bot_id ∧
    (mkCarryPosition ctx sym st g).symbol = sym :=
  ⟨rfl, rfl, rfl⟩

/-- Appending the carry position is safe when the open-position lookup for
its key came back empty. -/
theorem carry_append_atMostOneOpen (ctx : SymCtx) (sym : String) (st : RbState) (g : Group)
    (h : atMostOneOpen st.positions)
    (hany : ¬(st.positions.any fun p =>
      p.bot_id == g.bot_id && p.symbol == sym && p.status == "open") = true) :
    atMostOneOpen (st.positions ++ [mkCarryPosition ctx sym st g]) := by
  intro b s
  rw [countOpen_append]
  by_cases hkey : g.bot_id = b ∧ sym = s
  · obtain ⟨hb, hs⟩ := hkey
    subst hb
    subst hs
    have hzero : countOpen st.positions g.bot_id sym = 0 := by
      rw [countOpen, List.countP_eq_zero]
      exact List.any_eq_false.mp (Bool.eq_false_iff.mpr hany)
    rw [hzero]
    have hone : countOpen [mkCarryPosition ctx sym st g] g.bot_id sym ≤ 1 := by
      apply le_trans (List.countP_le_length _)
      simp
    simpa using hone
  · have hz : countOpen [mkCarryPosition ctx sym st g] b s = 0 := by
      rw [countOpen, List.countP_eq_zero]
      intro p hp
      rw [List.mem_singleton] at hp
      subst hp
      simp only [Bool.and_eq_true, beq_iff_eq, not_and]
      intro h1 _
      exact hkey ⟨h1.1, h1.2⟩
    rw [hz]
    simpa using h b s

/-- One open-carry step preserves the invariant: it only creates an open
position after checking that none exists for the key. -/
theorem carryStep_atMostOneOpen (ctx : SymCtx) (sym : String) (st : RbState) (g : Group)
    (h : atMostOneOpen st.positions) :
    atMostOneOpen (carryStep ctx sym st g).positions := by
  unfold carryStep
  dsimp only
  split
  · exact h
  · split
    · exact h
    · next hany =>
      split
      · split
        · exact h
        · exact carry_append_atMostOneOpen ctx sym st g h hany
      · split
        · exact h
        · exact carry_append_atMostOneOpen ctx sym st g h hany

/-- The open-carry fold preserves the invariant. -/
theorem carryFold_atMostOneOpen (ctx : SymCtx) (sym : String) :
    ∀ (gs : List Group) (st : RbState), atMostOneOpen st.positions →
      atMostOneOpen ((gs.foldl (carryStep ctx sym) st).positions) := by
  intro gs
  induction gs with
  | nil => intro st h; exact h
  | cons g t ih =>
    intro st h
    rw [List.foldl_cons]
    exact ih _ (carryStep_atMostOneOpen ctx sym st g h)

/-- One reconciled symbol preserves the invariant. -/
theorem processSymbol_atMostOneOpen (ctx : SymCtx) (sym : String) (rows : List IRow)
    (positions : List Position) (nextId : ℕ) (h : atMostOneOpen positions) :
    atMostOneOpen (processSymbol ctx sym rows positions nextId).1 := by
  unfold processSymbol
  dsimp only
  apply carryFold_atMostOneOpen
  intro b s
  rw [autoClose_countOpen, nettingFold_countOpen]
  dsimp only
  rw [pairStep_countOpen]
  exact h b s

/-- The per-symbol fold of the rebuild preserves the invariant. -/
theorem symbolsFold_atMostOneOpen (ctx : SymCtx) (irows : List IRow) :
    ∀ (symbols : List String) (acc : List Position × List ℕ × ℕ), atMostOneOpen acc.1 →
      atMostOneOpen (symbols.foldl
        (fun (acc : List Position × List ℕ × ℕ) s =>
          let r := processSymbol ctx s (irows.filter (fun r => r.2.symbol == s)) acc.1 acc.2.2
          (r.1, acc.2.1 ++ r.2.1, r.2.2)) acc).1 := by
  intro symbols
  induction symbols with
  | nil => intro acc h; exact h
  | cons a t ih =>
    intro acc h
    rw [List.foldl_cons]
    exact ih _ (processSymbol_atMostOneOpen ctx a _ acc.1 acc.2.2 h)

/-- A full rebuild preserves the one-open-per-key invariant. -/
theorem rebuild_atMostOneOpen (now : ℕ) (db : DB) (bot : ℕ)
    (h : atMostOneOpen db.positions) :
    atMostOneOpen (rebuild_positions_orderlink now db bot).1.positions := by
  unfold rebuild_positions_orderlink
  dsimp only
  split
  · exact h
  · exact symbolsFold_atMostOneOpen _ _ _ _ h

/-- `updatePos` with a key-and-status-preserving update keeps all open
counts. -/
theorem countOpen_updatePos (db : DB) (pid : ℕ) (f : Position → Position)
    (hf : ∀ p, (f p).bot_id = p.bot_id ∧ (f p).symbol = p.symbol ∧ (f p).status = p.status)
    (b : ℕ) (s : String) :
    countOpen (updatePos db pid f).positions b s = countOpen db.positions b s := by
  unfold updatePos countOpen
  dsimp only
  rw [List.countP_map]
  apply List.countP_congr
  intro p hp
  simp only [Function.comp_apply]
  split
  · rw [(hf p).1, (hf p).2.1, (hf p).2.2]
  · rfl

/-- `update_fee_open_for_position` writes fees and timestamps only: open
counts are untouched. -/
theorem update_fee_open_countOpen (db : DB) (pid b : ℕ) (s : String) :
    countOpen (update_fee_open_for_position db pid).positions b s
      = countOpen db.positions b s := by
  unfold update_fee_open_for_position
  split
  · rfl
  · split
    · rfl
    · dsimp only
      apply countOpen_updatePos
      intro p
      exact ⟨rfl, rfl, rfl⟩

/-- A singleton whose key differs contributes no open count. -/
theorem countOpen_singleton_ne (p : Position) (b : ℕ) (s : String)
    (hne : ¬(p.bot_id = b ∧ p.symbol = s)) : countOpen [p] b s = 0 := by
  rw [countOpen, List.countP_eq_zero]
  intro q hq
  rw [List.mem_singleton] at hq
  subst hq
  simp only [Bool.and_eq_true, beq_iff_eq, not_and]
  intro h1 _
  exact hne ⟨h1.1, h1.2⟩

/-- `handle_position_open` preserves the invariant. -/
theorem handle_open_atMostOneOpen (now : ℕ) (db : DB) (bid : ℕ) (sym side0 : String)
    (qty : ℚ) (oa : Option ℕ) (h : atMostOneOpen db.positions) :
    atMostOneOpen (handle_position_open now db bid sym side0 qty oa).1.positions := by
  unfold handle_position_open
  cases hfind : db.positions.find? (fun p =>
      p.bot_id == bid && p.symbol == sym && p.status == "open") with
  | some ex =>
    simp only [hfind]
    exact h
  | none =>
    simp only [hfind]
    intro b s
    rw [update_fee_open_countOpen]
    dsimp only
    rw [countOpen_append]
    by_cases hkey : bid = b ∧ sym = s
    · obtain ⟨hb, hs⟩ := hkey
      subst hb
      subst hs
      have hzero : countOpen db.positions bid sym = 0 := by
        rw [countOpen, List.countP_eq_zero]
        exact List.find?_eq_none.mp hfind
      rw [hzero]
      simp only [Nat.zero_add]
      apply le_trans (List.countP_le_length _)
      simp
    · rw [countOpen_singleton_ne _ b s (fun hc => hkey ⟨hc.1, hc.2⟩)]
      simpa using h b s

/-- `open_from_execs_if_missing` preserves the invariant. -/
theorem open_from_atMostOneOpen (db : DB) (bid : ℕ) (sym : String)
    (h : atMostOneOpen db.positions) :
    atMostOneOpen (open_from_execs_if_missing db bid sym).1.positions := by
  unfold open_from_execs_if_missing
  split
  · exact h
  · next hany =>
    split
    · exact h
    · intro b s
      dsimp only
      rw [countOpen_append]
      by_cases hkey : bid = b ∧ sym = s
      · obtain ⟨hb, hs⟩ := hkey
        subst hb
        subst hs
        have hzero : countOpen db.positions bid sym = 0 := by
          rw [countOpen, List.countP_eq_zero]
          exact List.any_eq_false.mp (Bool.eq_false_iff.mpr hany)
        rw [hzero]
        simp only [Nat.zero_add]
        apply le_trans (List.countP_le_length _)
        simp
      · rw [countOpen_singleton_ne _ b s (fun hc => hkey ⟨hc.1, hc.2⟩)]
        simpa using h b s

/-- C3: under the one-open-per-key invariant, every open-position creation
path — `handle_position_open`, `open_from_execs_if_missing` and the
open-carry branch of `rebuild_positions_orderlink` — first checks for an
existing open position of the key and skips creation if one exists, so each
entry point preserves the invariant: afterwards there is still at most one
open position per `(bot, symbol)`. -/
theorem c3_one_open_per_key (now bot : ℕ) (sym side0 : String) (qty : ℚ)
    (oa : Option ℕ) (db : DB) (h : atMostOneOpen db.positions) :
    atMostOneOpen (handle_position_open now db bot sym side0 qty oa).1.positions ∧
    atMostOneOpen (open_from_execs_if_missing db bot sym).1.positions ∧
    atMostOneOpen (rebuild_positions_orderlink now db bot).1.positions :=
  ⟨handle_open_atMostOneOpen now db bot sym side0 qty oa h,
   open_from_atMostOneOpen db bot sym h,
   rebuild_atMostOneOpen now db bot h⟩

/-- Witness for `c3_one_open_per_key` on the empty store. -/
theorem c3_one_open_per_key_witness :
    atMostOneOpen (handle_position_open 99 dbEmpty 1 "S" "long" 1 none).1.positions ∧
    atMostOneOpen (open_from_execs_if_missing dbEmpty 1 "S").1.positions ∧
    atMostOneOpen (rebuild_positions_orderlink 99 dbEmpty 1).1.positions :=
  c3_one_open_per_key 99 1 "S" "long" 1 none dbEmpty
    (fun b s => by simp [countOpen, dbEmpty])

/-- C9 counterexample fixtures: two fills with the SAME exchange timestamp
(1000) whose surrogate row ids are assigned in one insertion order here and in
the opposite order in `dbC9B`. -/
def dbC9A : DB :=
  { bots := [⟨1, 7⟩], settings := [], fundings := [], positions := [],
    execs := [⟨1, mkFill 1 "S" "buy" 100 1 0 1000 "A" "" "x1", false⟩,
              ⟨2, mkFill 1 "S" "sell" 105 1 0 1000 "B" "" "x2", false⟩],
    next_exec_id := 3, next_pos_id := 1 }

/-- The store of `dbC9A` with the insertion order of the two fills swapped. -/
def dbC9B : DB :=
  { bots := [⟨1, 7⟩], settings := [], fundings := [], positions := [],
    execs := [⟨1, mkFill 1 "S" "sell" 105 1 0 1000 "B" "" "x2", false⟩,
              ⟨2, mkFill 1 "S" "buy" 100 1 0 1000 "A" "" "x1", false⟩],
    next_exec_id := 3, next_pos_id := 1 }

/-- C9 does not hold as stated: the two stores hold the same multiset of
`(payload, consumed)` fill rows, yet because the two fills share an exchange
timestamp the surrogate insertion id decides the `(ts, id)` sort, hence the
group order, hence which group the pairing loop takes as the entry: `dbC9A`
rebuilds to a closed long (entry 100, exit 105) while `dbC9B` rebuilds to a
closed short (entry 105, exit 100). -/
theorem c9_counterexample :
    ((dbC9A.execs.map (fun e => (e.d, e.is_consumed))).Perm
        (dbC9B.execs.map (fun e => (e.d, e.is_consumed)))) ∧
    ((rebuild_positions_orderlink 99 dbC9A 1).1.positions.map
        (fun p => (p.side, p.entry_price_vwap, p.exit_price_vwap))
      = [("long", some 100, some 105)]) ∧
    ((rebuild_positions_orderlink 99 dbC9B 1).1.positions.map
        (fun p => (p.side, p.entry_price_vwap, p.exit_price_vwap))
      = [("short", some 105, some 100)]) :=
  ⟨by with_unfolding_all decide,
   of_decide_eq_true (by with_unfolding_all rfl),
   of_decide_eq_true (by with_unfolding_all rfl)⟩

/-- Strict `(symbol, timestamp)` lexicographic order on fill payloads: the
order the selection sort induces on the payload data once timestamps are
pairwise distinct within each symbol. -/
def dataLt (d1 d2 : FillData) : Prop :=
  d1.symbol.data < d2.symbol.data ∨ (d1.symbol = d2.symbol ∧ d1.ts < d2.ts)

instance : IsAntisymm FillData dataLt := by
  constructor
  rintro a b (h | ⟨he, h⟩) (h' | ⟨he', h'⟩)
  · exact absurd h' (lt_asymm h)
  · rw [he'] at h
    exact absurd h (lt_irrefl _)
  · rw [he] at h'
    exact absurd h' (lt_irrefl _)
  · exact absurd h' (Nat.lt_asymm h)

/-- `List.enumFrom` commutes with mapping a function over the entries. -/
theorem enumFrom_map_snd {α β : Type} (f : α → β) (l : List α) :
    ∀ n : ℕ, (l.enumFrom n).map (fun p => (p.1, f p.2)) = (l.map f).enumFrom n := by
  induction l with
  | nil => intro n; rfl
  | cons a t ih =>
      intro n
      simp only [List.enumFrom, List.map_cons]
      exact congrArg _ (ih (n + 1))

/-- `List.enum` commutes with mapping a function over the entries. -/
theorem enum_map_snd {α β : Type} (f : α → β) (l : List α) :
    l.enum.map (fun p => (p.1, f p.2)) = (l.map f).enum :=
  enumFrom_map_snd f l 0

/-- `List.isEmpty` decides emptiness. -/
theorem isEmpty_eq_true_iff {α : Type} {l : List α} : l.isEmpty = true ↔ l = [] := by
  cases l <;> simp [List.isEmpty]

/-- A list sorted under the selection order whose same-symbol timestamps are
pairwise distinct is strictly sorted on the `(symbol, ts)` data. -/
theorem pairwise_dataLt_of_sorted {l : List Exec}
    (hs : List.Sorted selLe l)
    (hd : l.Pairwise (fun a b => a.d.symbol = b.d.symbol → a.d.ts ≠ b.d.ts)) :
    (l.map (fun e => e.d)).Pairwise dataLt := by
  rw [List.pairwise_map]
  refine List.Pairwise.imp ?_ (List.Pairwise.and hs hd)
  intro a b hab
  rcases hab with ⟨hle, hdist⟩
  rcases hle with h | ⟨he, hts2⟩
  · exact Or.inl h
  · rcases hts2 with h2 | ⟨heq, _⟩
    · exact Or.inr ⟨he, h2⟩
    · exact absurd heq (hdist he)

/-- Determinacy of the selected, sorted payload sequence: two stores holding
the same multiset of `(payload, consumed)` rows, with pairwise-distinct
timestamps per symbol among the selected rows, sort their selections to the
same payload sequence. -/
theorem selection_data_eq (bot : ℕ) (db1 db2 : DB)
    (hperm : (db1.execs.map (fun e => (e.d, e.is_consumed))).Perm
      (db2.execs.map (fun e => (e.d, e.is_consumed))))
    (hts : (db1.execs.filter (fun e => e.d.bot_id == bot && !e.is_consumed)).Pairwise
      (fun a b => a.d.symbol = b.d.symbol → a.d.ts ≠ b.d.ts)) :
    (List.insertionSort selLe
        (db1.execs.filter (fun e => e.d.bot_id == bot && !e.is_consumed))).map
        (fun e => e.d)
      = (List.insertionSort selLe
        (db2.execs.filter (fun e => e.d.bot_id == bot && !e.is_consumed))).map
        (fun e => e.d) := by
  have hf1 : (db1.execs.filter (fun e => e.d.bot_id == bot && !e.is_consumed)).map
      (fun e => (e.d, e.is_consumed))
      = ((db1.execs.map (fun e => (e.d, e.is_consumed))).filter
          (fun q => q.1.bot_id == bot && !q.2)) := by
    rw [List.filter_map]
    rfl
  have hf2 : (db2.execs.filter (fun e => e.d.bot_id == bot && !e.is_consumed)).map
      (fun e => (e.d, e.is_consumed))
      = ((db2.execs.map (fun e => (e.d, e.is_consumed))).filter
          (fun q => q.1.bot_id == bot && !q.2)) := by
    rw [List.filter_map]
    rfl
  have hsp : ((db1.execs.filter (fun e => e.d.bot_id == bot && !e.is_consumed)).map
      (fun e => (e.d, e.is_consumed))).Perm
      ((db2.execs.filter (fun e => e.d.bot_id == bot && !e.is_consumed)).map
        (fun e => (e.d, e.is_consumed))) := by
    rw [hf1, hf2]
    exact hperm.filter _
  have hm1 : ((db1.execs.filter (fun e => e.d.bot_id == bot && !e.is_consumed)).map
      (fun e => (e.d, e.is_consumed))).map Prod.fst
      = (db1.execs.filter (fun e => e.d.bot_id == bot && !e.is_consumed)).map
        (fun e => e.d) := by
    rw [List.map_map]
    rfl
  have hm2 : ((db2.execs.filter (fun e => e.d.bot_id == bot && !e.is_consumed)).map
      (fun e => (e.d, e.is_consumed))).map Prod.fst
      = (db2.execs.filter (fun e => e.d.bot_id == bot && !e.is_consumed)).map
        (fun e => e.d) := by
    rw [List.map_map]
    rfl
  have hdp : ((db1.execs.filter (fun e => e.d.bot_id == bot && !e.is_consumed)).map
      (fun e => e.d)).Perm
      ((db2.execs.filter (fun e => e.d.bot_id == bot && !e.is_consumed)).map
        (fun e => e.d)) := by
    have h := hsp.map Prod.fst
    rwa [hm1, hm2] at h
  have hS : ((List.insertionSort selLe
      (db1.execs.filter (fun e => e.d.bot_id == bot && !e.is_consumed))).map
        (fun e => e.d)).Perm
      ((List.insertionSort selLe
        (db2.execs.filter (fun e => e.d.bot_id == bot && !e.is_consumed))).map
        (fun e => e.d)) :=
    (((List.perm_insertionSort selLe
        (db1.execs.filter (fun e => e.d.bot_id == bot && !e.is_consumed))).map
        (fun e => e.d)).trans hdp).trans
      ((List.perm_insertionSort selLe
        (db2.execs.filter (fun e => e.d.bot_id == bot && !e.is_consumed))).map
        (fun e => e.d)).symm
  have hs1 := List.sorted_insertionSort selLe
    (db1.execs.filter (fun e => e.d.bot_id == bot && !e.is_consumed))
  have hs2 := List.sorted_insertionSort selLe
    (db2.execs.filter (fun e => e.d.bot_id == bot && !e.is_consumed))
  have hd1 : (List.insertionSort selLe
      (db1.execs.filter (fun e => e.d.bot_id == bot && !e.is_consumed))).Pairwise
      (fun a b => a.d.symbol = b.d.symbol → a.d.ts ≠ b.d.ts) :=
    ((List.perm_insertionSort selLe
        (db1.execs.filter (fun e => e.d.bot_id == bot && !e.is_consumed))).pairwise_iff
      (fun {x y} h he hts2 => h he.symm hts2.symm)).mpr hts
  have hdd1 : ((List.insertionSort selLe
      (db1.execs.filter (fun e => e.d.bot_id == bot && !e.is_consumed))).map
        (fun e => e.d)).Pairwise
      (fun x y => x.symbol = y.symbol → x.ts ≠ y.ts) := by
    rw [List.pairwise_map]
    exact hd1
  have hdd2 : ((List.insertionSort selLe
      (db2.execs.filter (fun e => e.d.bot_id == bot && !e.is_consumed))).map
        (fun e => e.d)).Pairwise
      (fun x y => x.symbol = y.symbol → x.ts ≠ y.ts) :=
    (hS.pairwise_iff (fun {x y} h he hts2 => h he.symm hts2.symm)).mp hdd1
  have hd2 : (List.insertionSort selLe
      (db2.execs.filter (fun e => e.d.bot_id == bot && !e.is_consumed))).Pairwise
      (fun a b => a.d.symbol = b.d.symbol → a.d.ts ≠ b.d.ts) := by
    rw [List.pairwise_map] at hdd2
    exact hdd2
  exact List.eq_of_perm_of_sorted hS (pairwise_dataLt_of_sorted hs1 hd1)
    (pairwise_dataLt_of_sorted hs2 hd2)

/-- C9 (amended): insertion order is irrelevant to the full rebuild PROVIDED
no two selected fills of the same symbol share an exchange timestamp.  Two
stores that agree on bots, fundings, positions and the position counter and
hold the same multiset of `(payload, consumed)` execution rows — i.e. the same
fills under any permutation of insertion order and surrogate-id assignment —
rebuild to the same positions table and the same created count.  Without the
distinct-timestamp proviso the surrogate insertion id is the `(ts, id)`
tie-break and `c9_counterexample` shows the outputs can differ. -/
theorem c9_amended_insertion_order_irrelevant (now bot : ℕ) (db1 db2 : DB)
    (hb : db1.bots = db2.bots) (hf : db1.fundings = db2.fundings)
    (hpos : db1.positions = db2.positions) (hn : db1.next_pos_id = db2.next_pos_id)
    (hperm : (db1.execs.map (fun e => (e.d, e.is_consumed))).Perm
      (db2.execs.map (fun e => (e.d, e.is_consumed))))
    (hts : (db1.execs.filter (fun e => e.d.bot_id == bot && !e.is_consumed)).Pairwise
      (fun a b => a.d.symbol = b.d.symbol → a.d.ts ≠ b.d.ts)) :
    (rebuild_positions_orderlink now db1 bot).1.positions
      = (rebuild_positions_orderlink now db2 bot).1.positions ∧
    (rebuild_positions_orderlink now db1 bot).2
      = (rebuild_positions_orderlink now db2 bot).2 := by
  have hdata := selection_data_eq bot db1 db2 hperm hts
  have hirows : (List.insertionSort selLe
        (db1.execs.filter (fun e => e.d.bot_id == bot && !e.is_consumed))).enum.map
        (fun p => (p.1, p.2.d))
      = (List.insertionSort selLe
        (db2.execs.filter (fun e => e.d.bot_id == bot && !e.is_consumed))).enum.map
        (fun p => (p.1, p.2.d)) := by
    rw [enum_map_snd, enum_map_snd, hdata]
  have hall : (↑(db1.execs.map (fun e => e.d)) : Multiset FillData)
      = ↑(db2.execs.map (fun e => e.d)) := by
    refine Multiset.coe_eq_coe.mpr ?_
    have h := hperm.map Prod.fst
    have hm1 : (db1.execs.map (fun e => (e.d, e.is_consumed))).map Prod.fst
        = db1.execs.map (fun e => e.d) := by
      rw [List.map_map]
      rfl
    have hm2 : (db2.execs.map (fun e => (e.d, e.is_consumed))).map Prod.fst
        = db2.execs.map (fun e => e.d) := by
      rw [List.map_map]
      rfl
    rwa [hm1, hm2] at h
  simp only [rebuild_positions_orderlink]
  by_cases hE : List.insertionSort selLe
      (db1.execs.filter (fun e => e.d.bot_id == bot && !e.is_consumed)) = []
  · have hE2 : List.insertionSort selLe
        (db2.execs.filter (fun e => e.d.bot_id == bot && !e.is_consumed)) = [] := by
      have hmap : (List.insertionSort selLe
          (db2.execs.filter (fun e => e.d.bot_id == bot && !e.is_consumed))).map
          (fun e => e.d) = [] := by
        rw [← hdata, hE]
        rfl
      exact List.map_eq_nil_iff.mp hmap
    rw [if_pos (isEmpty_eq_true_iff.mpr hE), if_pos (isEmpty_eq_true_iff.mpr hE2)]
    exact ⟨hpos, rfl⟩
  · have hE2 : ¬ List.insertionSort selLe
        (db2.execs.filter (fun e => e.d.bot_id == bot && !e.is_consumed)) = [] := by
      intro h2
      apply hE
      have hmap : (List.insertionSort selLe
          (db1.execs.filter (fun e => e.d.bot_id == bot && !e.is_consumed))).map
          (fun e => e.d) = [] := by
        rw [hdata, h2]
        rfl
      exact List.map_eq_nil_iff.mp hmap
    rw [if_neg (fun hc => hE (isEmpty_eq_true_iff.mp hc)),
        if_neg (fun hc => hE2 (isEmpty_eq_true_iff.mp hc))]
    dsimp only
    rw [hirows, hb, hf, hall, hpos, hn]
    exact ⟨rfl, rfl⟩

/-- C9 witness fixture: the `dbC6` scenario stored in the opposite insertion
order (the sell fill gets the smaller surrogate id). -/
def dbC9w : DB :=
  { bots := [⟨1, 7⟩], settings := [], fundings := [], positions := [],
    execs := [⟨1, mkFill 1 "BTCUSDT" "sell" 105 1 (1 / 10) 10 "B" "" "e2", false⟩,
              ⟨2, mkFill 1 "BTCUSDT" "buy" 100 1 (1 / 10) 0 "A" "" "e1", false⟩],
    next_exec_id := 3, next_pos_id := 1 }

/-- Witness for `c9_amended_insertion_order_irrelevant`: the two-fill scenario
stored in either insertion order (timestamps 0 and 10 are distinct) rebuilds
to the same positions and the same created count. -/
theorem c9_amended_insertion_order_irrelevant_witness :
    ((dbC6.execs.map (fun e => (e.d, e.is_consumed))).Perm
        (dbC9w.execs.map (fun e => (e.d, e.is_consumed)))) ∧
    ((dbC6.execs.filter (fun e => e.d.bot_id == 1 && !e.is_consumed)).Pairwise
      (fun a b => a.d.symbol = b.d.symbol → a.d.ts ≠ b.d.ts)) ∧
    (rebuild_positions_orderlink 1000000 dbC6 1).1.positions
      = (rebuild_positions_orderlink 1000000 dbC9w 1).1.positions ∧
    (rebuild_positions_orderlink 1000000 dbC6 1).2
      = (rebuild_positions_orderlink 1000000 dbC9w 1).2 :=
  ⟨by with_unfolding_all decide, by with_unfolding_all decide,
   (c9_amended_insertion_order_irrelevant 1000000 1 dbC6 dbC9w rfl rfl rfl rfl
      (by with_unfolding_all decide) (by with_unfolding_all decide)).1,
   (c9_amended_insertion_order_irrelevant 1000000 1 dbC6 dbC9w rfl rfl rfl rfl
      (by with_unfolding_all decide) (by with_unfolding_all decide)).2⟩

end TF
